import Mathlib

/-!
Verification of the metadata-resolution and library-placement engine of the
audiobook pipeline.  The Python sources (`ops/organize.py`, `api/search.py`,
`ai.py`, `stages/asin.py`, `library_index.py`, `ops/library_diff.py`,
`ops/audit.py`, `sanitize.py`) are shallowly embedded: Python strings become
`List Char` (wrapped in `String` at the API), each concrete regular expression
becomes a bespoke scanner implementing its matching semantics, dictionaries
become association lists or update functions, and filesystem interaction is
modelled by passing the directory listing data the code reads.
-/

namespace ABP

/-! ## Python string primitives -/

/-- Whitespace characters recognised by `str.strip()` and `\s` (ASCII subset). -/
def pyIsSpace (c : Char) : Bool :=
  c = ' ' || c = '\t' || c = '\n' || c = '\r' || c = '\x0b' || c = '\x0c'

def isDigitC (c : Char) : Bool := c.isDigit

/-- Lowercase hex digits, as matched by `[a-f0-9]`. -/
def isHexLowerC (c : Char) : Bool := c.isDigit || ('a' ≤ c && c ≤ 'f')

/-- Word characters, as matched by `\w` (ASCII subset). -/
def isWordC (c : Char) : Bool := c.isAlpha || c.isDigit || c = '_'

def lowerC (c : Char) : Char := c.toLower

def upperC (c : Char) : Char := c.toUpper

def pyLowerL (l : List Char) : List Char := l.map lowerC

def pyUpperL (l : List Char) : List Char := l.map upperC

/-- Drop leading characters satisfying `p` (`str.lstrip` family). -/
def dropLeading (p : Char → Bool) (l : List Char) : List Char := l.dropWhile p

/-- Drop trailing characters satisfying `p` (`str.rstrip` family). -/
def dropTrailing (p : Char → Bool) (l : List Char) : List Char :=
  (l.reverse.dropWhile p).reverse

/-- Python `str.strip()` with no arguments: strip whitespace on both sides. -/
def pyStripL (l : List Char) : List Char := dropTrailing pyIsSpace (dropLeading pyIsSpace l)

/-- Python `str.strip(chars)`: strip any of the given characters on both sides. -/
def pyStripCharsL (cs : List Char) (l : List Char) : List Char :=
  dropTrailing (· ∈ cs) (dropLeading (· ∈ cs) l)

def pyLstripCharsL (cs : List Char) (l : List Char) : List Char := dropLeading (· ∈ cs) l

def pyRstripCharsL (cs : List Char) (l : List Char) : List Char := dropTrailing (· ∈ cs) l

/-- Length of the run of characters satisfying `p` at the head of the list. -/
def runLen (p : Char → Bool) (l : List Char) : Nat := (l.takeWhile p).length

/-- Does `needle` occur as a contiguous substring of `hay`? -/
def hasSub (hay needle : List Char) : Bool := hay.tails.any (needle.isPrefixOf ·)

/-- Python `str.isdigit()` (ASCII digits). -/
def pyIsDigitL (l : List Char) : Bool := l ≠ [] && l.all isDigitC

/-- Python `str.split()` with no arguments: split on whitespace runs,
discarding empty pieces. -/
def pySplitWS (l : List Char) : List (List Char) :=
  (l.splitOnP pyIsSpace).filter (· ≠ [])

/-- Accumulator loop for `pySplitlines`: each line terminator (`\n`, `\r`,
`\r\n`) ends a line; a trailing segment is a line only when non-empty. -/
def pySplitlinesAux (cur : List Char) : List Char → List (List Char)
  | [] => if cur = [] then [] else [cur.reverse]
  | '\r' :: '\n' :: tail => cur.reverse :: pySplitlinesAux [] tail
  | '\r' :: tail => cur.reverse :: pySplitlinesAux [] tail
  | '\n' :: tail => cur.reverse :: pySplitlinesAux [] tail
  | c :: tail => pySplitlinesAux (c :: cur) tail

/-- Python `str.splitlines()`. -/
def pySplitlines (l : List Char) : List (List Char) := pySplitlinesAux [] l

/-- Python `str.split(sep, 1)[0]` and remainder: split at the first occurrence
of character `sep`; returns `(before, some after)` or `(l, none)`. -/
def splitFirstChar (sep : Char) (l : List Char) : List Char × Option (List Char) :=
  match l with
  | [] => ([], none)
  | c :: rest =>
    if c = sep then ([], some rest)
    else
      let (b, a) := splitFirstChar sep rest
      (c :: b, a)

/-- Python `str.rsplit(sep, 1)`: split at the last occurrence of `sep`. -/
def rsplitLastChar (sep : Char) (l : List Char) : Option (List Char × List Char) :=
  match splitFirstChar sep l.reverse with
  | (_, none) => none
  | (after, some before) => some (before.reverse, after.reverse)

/-- Fuel-driven loop for `collapseWS` (the whitespace-collapsing
`re.sub(r"\s+", " ", s)`); the fuel is the list length, which the
loop never exhausts since every step consumes at least one character. -/
def collapseWSF : Nat → List Char → List Char
  | 0, l => l
  | _ + 1, [] => []
  | fuel + 1, c :: rest =>
    if pyIsSpace c then ' ' :: collapseWSF fuel (rest.dropWhile pyIsSpace)
    else c :: collapseWSF fuel rest

def collapseWS (l : List Char) : List Char := collapseWSF l.length l

/-- Fuel-driven loop for `subAll` (the fuel is the list length; each step
consumes at least one character). -/
def subAllF (f : List Char → Option (Nat × List Char)) : Nat → List Char → List Char
  | 0, l => l
  | _ + 1, [] => []
  | fuel + 1, c :: rest =>
    match f (c :: rest) with
    | some (k, rep) =>
      if 0 < k then rep ++ subAllF f fuel ((c :: rest).drop k)
      else c :: subAllF f fuel rest
    | none => c :: subAllF f fuel rest

/-- Generic non-overlapping global substitution (Python `re.sub` scan order):
at each position try the matcher; on a match of `k > 0` characters emit the
replacement and continue after the match, otherwise emit one character. -/
def subAll (f : List Char → Option (Nat × List Char)) (l : List Char) : List Char :=
  subAllF f l.length l

/-- Generic leftmost search: returns the number of characters before the match
together with the matcher's output. -/
def findFirstIdx (f : List Char → Option β) (l : List Char) : Option (Nat × β) :=
  match f l with
  | some b => some (0, b)
  | none =>
    match l with
    | [] => none
    | _ :: rest =>
      match findFirstIdx f rest with
      | some (i, b) => some (i + 1, b)
      | none => none

/-- Split at the first occurrence of the character sequence `sep`
(Python `str.split(sep, 1)`). -/
def splitFirstSeq (sep : List Char) (l : List Char) : Option (List Char × List Char) :=
  match findFirstIdx (fun t => if sep.isPrefixOf t then some () else none) l with
  | some (i, _) => some (l.take i, l.drop (i + sep.length))
  | none => none

/-! ## ops/organize.py — path parsing -/

/-- Label suffixes that are not real series names (`_LABEL_SUFFIXES`). -/
def labelSuffixes : List (List Char) :=
  ["audiobook".toList, "audio".toList, "unabridged".toList, "abridged".toList]

/-- Basenames that are useless (`_GENERIC_BASENAMES`). -/
def genericBasenames : List (List Char) :=
  ["file".toList, "mp3".toList, "audiobook".toList, "audio".toList, "book".toList,
   "track".toList, "output".toList, "part1".toList, "part2".toList, "part 1".toList,
   "part 2".toList, "disc1".toList, "disc2".toList]

/-- Strip the pipeline hash suffix: `re.sub(r"\s+-\s+[a-f0-9]{16}$", "", name)`.
The anchored pattern matches exactly the last 16 characters as lowercase hex,
preceded by whitespace, a dash, and more whitespace. -/
def stripHash (l : List Char) : List Char :=
  let r := l.reverse
  if (r.take 16).length = 16 && (r.take 16).all isHexLowerC then
    let r2 := r.drop 16
    let w2 := runLen pyIsSpace r2
    if 1 ≤ w2 then
      match r2.drop w2 with
      | '-' :: r3 =>
        let w1 := runLen pyIsSpace r3
        if 1 ≤ w1 then (r3.drop w1).reverse else l
      | _ => l
    else l
  else l

/-- Strip label suffixes:
`re.sub(r"\s+-\s+(?:Audiobook|Audio|Unabridged|Abridged)$", "", name, re.I)`. -/
def stripLabelSuffixWith (words : List (List Char)) (l : List Char) : List Char :=
  let rlow := pyLowerL l.reverse
  let fits := fun (w : List Char) =>
    let r2 := rlow.drop w.length
    let w2 := runLen pyIsSpace r2
    w.reverse.isPrefixOf rlow && 1 ≤ w2 &&
      (match r2.drop w2 with
       | '-' :: r3 => 1 ≤ runLen pyIsSpace r3
       | _ => false)
  match words.find? fits with
  | some w =>
    let r2 := rlow.drop w.length
    let w2 := runLen pyIsSpace r2
    let r3 := r2.drop (w2 + 1)
    let w1 := runLen pyIsSpace r3
    (l.reverse.drop (w.length + w2 + 1 + w1)).reverse
  | none => l

def stripLabelSuffix (l : List Char) : List Char :=
  stripLabelSuffixWith labelSuffixes l

/-- Matcher for `-#-(\d+)` (replaced by `-#\1`). -/
def fixMarkerA (l : List Char) : Option (Nat × List Char) :=
  match l with
  | '-' :: '#' :: '-' :: rest =>
    let d := runLen isDigitC rest
    if 1 ≤ d then some (3 + d, '-' :: '#' :: rest.take d) else none
  | _ => none

/-- Matcher for `-#(\d+) ` (replaced by `-#\1-`; the trailing space is a
literal in the source pattern). -/
def fixMarkerB (l : List Char) : Option (Nat × List Char) :=
  match l with
  | '-' :: '#' :: rest =>
    let d := runLen isDigitC rest
    if 1 ≤ d && (rest.drop d).head? = some ' ' then
      some (2 + d + 1, '-' :: '#' :: (rest.take d ++ ['-']))
    else none
  | _ => none

/-- Normalise malformed position markers, as in `parse_path`:
`"#-N" -> "#N"` then `"#N " -> "#N-"`. -/
def normalizeMarkers (l : List Char) : List Char :=
  subAll fixMarkerB (subAll fixMarkerA l)

/-- Match `-#(\d+)-` at the head: returns the digits and the total length. -/
def markerAt (l : List Char) : Option (List Char × Nat) :=
  match l with
  | '-' :: '#' :: rest =>
    let d := runLen isDigitC rest
    if 1 ≤ d && (rest.drop d).head? = some '-' then some (rest.take d, d + 3) else none
  | _ => none

/-- Does `re.search(r"-#\d+-", s)` succeed? -/
def hasMarker (l : List Char) : Bool :=
  (findFirstIdx (fun t => (markerAt t).map (fun _ => ())) l).isSome

/-- Fuel-driven loop for `iterMarkers`. -/
def iterMarkersF : Nat → List Char → Nat → List (Nat × List Char × Nat)
  | 0, _, _ => []
  | _ + 1, [], _ => []
  | fuel + 1, c :: rest, pos =>
    match markerAt (c :: rest) with
    | some (ds, k) => (pos, ds, pos + k) :: iterMarkersF fuel ((c :: rest).drop k) (pos + k)
    | none => iterMarkersF fuel rest (pos + 1)

/-- All non-overlapping matches of `-#(\d+)-` (`re.finditer` semantics):
returns `(start, digits, end)` triples.  The fuel is the list length; a match
always consumes at least one character. -/
def iterMarkers (l : List Char) (pos : Nat) : List (Nat × List Char × Nat) :=
  iterMarkersF l.length l pos

/-- Test for `re.search(r"-(.+?)-#\d+", prefix)`: is there a dash followed by
at least one non-newline character and then `-#` with a digit? -/
def seekDashHash (seen : Nat) (l : List Char) : Bool :=
  match l with
  | [] => false
  | c :: rest =>
    (match c, rest with
     | '-', '#' :: d :: _ => isDigitC d && 1 ≤ seen
     | _, _ => false)
    || (c ≠ '\n' && seekDashHash (seen + 1) rest)

def searchDashHash (l : List Char) : Bool :=
  (findFirstIdx
    (fun t =>
      match t with
      | '-' :: rest => if seekDashHash 0 rest then some () else none
      | _ => none)
    l).isSome

/-- First element of `re.split(r"-#\d+-", s)`: the text before the first
marker occurrence. -/
def splitMarkerFirst (l : List Char) : List Char :=
  match (iterMarkers l 0).head? with
  | some (s, _, _) => l.take s
  | none => l

/-- Test for `re.search(r"-#\d+", s)`. -/
def searchDashNum (l : List Char) : Bool :=
  (findFirstIdx
    (fun t =>
      match t with
      | '-' :: '#' :: d :: _ => if isDigitC d then some () else none
      | _ => none)
    l).isSome

/-- Greedy choice of the final `(.+)$` group after a `\s+`: try the maximal
whitespace run first and backtrack until the remaining group is non-empty and
newline-free. `maxRun` is the length of the whitespace run starting `rest`. -/
def pickGreedyTail : Nat → List Char → Option (List Char)
  | 0, _ => none
  | w + 1, rest =>
    let g := rest.drop (w + 1)
    if g ≠ [] && !g.contains '\n' then some g else pickGreedyTail w rest

/-- Tail of Pattern B2 after the lazy group: `\s+(\d{1,3})\s+-\s+(.+)$`. -/
def tailMatchB2 (rest : List Char) : Option (List Char × List Char) :=
  let w1 := runLen pyIsSpace rest
  if w1 = 0 then none else
  let afterW1 := rest.drop w1
  let d := runLen isDigitC afterW1
  if d = 0 || 3 < d then none else
  let digits := afterW1.take d
  let afterD := afterW1.drop d
  let w2 := runLen pyIsSpace afterD
  if w2 = 0 then none else
  match afterD.drop w2 with
  | '-' :: rest2 =>
    match pickGreedyTail (runLen pyIsSpace rest2) rest2 with
    | some g3 => some (digits, g3)
    | none => none
  | _ => none

/-- Tail of Pattern B after the lazy group: `\s+(\d{1,3})\s+(.+)$`. -/
def tailMatchB (rest : List Char) : Option (List Char × List Char) :=
  let w1 := runLen pyIsSpace rest
  if w1 = 0 then none else
  let afterW1 := rest.drop w1
  let d := runLen isDigitC afterW1
  if d = 0 || 3 < d then none else
  let digits := afterW1.take d
  let afterD := afterW1.drop d
  match pickGreedyTail (runLen pyIsSpace afterD) afterD with
  | some g3 => some (digits, g3)
  | none => none

/-- Tail of Pattern G after the lazy group: `\s+\[(\d+)\]\s+(.+)$`. -/
def tailMatchG (rest : List Char) : Option (List Char × List Char) :=
  let w1 := runLen pyIsSpace rest
  if w1 = 0 then none else
  match rest.drop w1 with
  | '[' :: r1 =>
    let d := runLen isDigitC r1
    if d = 0 then none else
    if (r1.drop d).head? = some ']' then
      let rest2 := r1.drop (d + 1)
      match pickGreedyTail (runLen pyIsSpace rest2) rest2 with
      | some g3 => some (r1.take d, g3)
      | none => none
    else none
  | _ => none

/-- Anchored match with a lazy first group: the group grows from the shortest
non-empty newline-free prefix until the tail matcher succeeds. -/
def lazyHeadMatch (tail : List Char → Option (List Char × List Char)) :
    List Char → List Char → Option (List Char × List Char × List Char)
  | g1rev, rest =>
    match (if g1rev ≠ [] then tail rest else none) with
    | some (digits, g3) => some (g1rev.reverse, digits, g3)
    | none =>
      match rest with
      | [] => none
      | c :: rest' => if c = '\n' then none else lazyHeadMatch tail (c :: g1rev) rest'

/-- Pattern B2: `re.match(r"^(.+?)\s+(\d{1,3})\s+-\s+(.+)$", s)`. -/
def matchB2 (l : List Char) : Option (List Char × List Char × List Char) :=
  lazyHeadMatch tailMatchB2 [] l

/-- Pattern B: `re.match(r"^(.+?)\s+(\d{1,3})\s+(.+)$", s)`. -/
def matchB (l : List Char) : Option (List Char × List Char × List Char) :=
  lazyHeadMatch tailMatchB [] l

/-- Pattern G: `re.match(r"^(.+?)\s+\[(\d+)\]\s+(.+)$", s)`. -/
def matchG (l : List Char) : Option (List Char × List Char × List Char) :=
  lazyHeadMatch tailMatchG [] l

/-- Matcher for `\[\d+\]` (removed). -/
def bracketNumM (l : List Char) : Option (Nat × List Char) :=
  match l with
  | '[' :: rest =>
    let d := runLen isDigitC rest
    if 1 ≤ d && (rest.drop d).head? = some ']' then some (d + 2, []) else none
  | _ => none

/-- Anchored `re.match(r"^\[(.+)\]$", s)`: the whole string is bracketed with
a non-empty newline-free middle. -/
def fullBracketTitle (l : List Char) : Option (List Char) :=
  match l with
  | '[' :: rest =>
    if rest.getLast? = some ']' then
      let mid := rest.dropLast
      if mid ≠ [] && !mid.contains '\n' then some mid else none
    else none
  | _ => none

/-- Anchored `re.sub(r"^\d+\s*[-–]?\s*", "", s)`. -/
def stripLeadingNum (l : List Char) : List Char :=
  let d := runLen isDigitC l
  if d = 0 then l
  else
    let a1 := l.drop d
    let a2 := a1.drop (runLen pyIsSpace a1)
    match a2 with
    | c :: rest => if c = '-' || c = '–' then rest.drop (runLen pyIsSpace rest) else a2
    | [] => []

/-- Matcher for `\s*\{[^}]+\}` (removed). -/
def braceJunkM (l : List Char) : Option (Nat × List Char) :=
  let w := runLen pyIsSpace l
  match l.drop w with
  | '\x7b' :: rest =>
    let b := runLen (fun c => c ≠ '\x7d') rest
    if 1 ≤ b && (rest.drop b).head? = some '\x7d' then some (w + 1 + b + 1, []) else none
  | _ => none

/-- Is there a `\b\d+k\b` token inside a parenthesised body? -/
def hasKToken (prev : Option Char) (l : List Char) : Bool :=
  match l with
  | [] => false
  | c :: rest =>
    (isDigitC c && (match prev with | none => true | some p => !isWordC p) &&
      (let r := runLen isDigitC (c :: rest)
       match (c :: rest).drop r with
       | 'k' :: rest2 => match rest2.head? with | some x => !isWordC x | none => true
       | _ => false))
    || hasKToken (some c) rest

/-- Matcher for `\s*\([^)]*\b\d+k\b[^)]*\)` (removed). -/
def bitrateParenM (l : List Char) : Option (Nat × List Char) :=
  let w := runLen pyIsSpace l
  match l.drop w with
  | '(' :: rest =>
    let b := runLen (fun c => c ≠ ')') rest
    if (rest.drop b).head? = some ')' && hasKToken none (rest.take b) then
      some (w + 1 + b + 1, [])
    else none
  | _ => none

/-- Matcher for `\s*\([A-Z][a-z]+\)\s+\d+k\s+[\d.]+` (removed). -/
def codecBitrateM (l : List Char) : Option (Nat × List Char) :=
  let w := runLen pyIsSpace l
  match l.drop w with
  | '(' :: c1 :: rest =>
    if 'A' ≤ c1 && c1 ≤ 'Z' then
      let lo := runLen (fun c => 'a' ≤ c && c ≤ 'z') rest
      if 1 ≤ lo && (rest.drop lo).head? = some ')' then
        let r2 := rest.drop (lo + 1)
        let w1 := runLen pyIsSpace r2
        if 1 ≤ w1 then
          let r3 := r2.drop w1
          let dr := runLen isDigitC r3
          if 1 ≤ dr && (r3.drop dr).head? = some 'k' then
            let r4 := r3.drop (dr + 1)
            let w2 := runLen pyIsSpace r4
            if 1 ≤ w2 then
              let r5 := r4.drop w2
              let fr := runLen (fun c => isDigitC c || c = '.') r5
              if 1 ≤ fr then
                some (w + 2 + lo + 1 + w1 + dr + 1 + w2 + fr, [])
              else none
            else none
          else none
        else none
      else none
    else none
  | _ => none

/-- Matcher for `\s*\((?:The\s+)?Audio\s*Book\)` (case-insensitive, removed). -/
def audioBookParenM (l : List Char) : Option (Nat × List Char) :=
  let w := runLen pyIsSpace l
  match l.drop w with
  | '(' :: rest =>
    let low := pyLowerL rest
    let afterThe : Option Nat :=
      if ("the".toList).isPrefixOf low then
        let tw := runLen pyIsSpace (low.drop 3)
        if 1 ≤ tw then some (3 + tw) else none
      else none
    let tryAt : Nat → Option Nat := fun k =>
      let low2 := low.drop k
      if ("audio".toList).isPrefixOf low2 then
        let mw := runLen pyIsSpace (low2.drop 5)
        if ("book".toList).isPrefixOf (low2.drop (5 + mw)) then
          if (low2.drop (5 + mw + 4)).head? = some ')' then
            some (k + 5 + mw + 4 + 1)
          else none
        else none
      else none
    match (match afterThe with | some k => tryAt k | none => none) with
    | some n => some (w + 1 + n, [])
    | none =>
      match tryAt 0 with
      | some n => some (w + 1 + n, [])
      | none => none
  | _ => none

/-- Matcher for `\s*\(Unabridged\)` (case-insensitive, removed). -/
def unabridgedParenM (l : List Char) : Option (Nat × List Char) :=
  let w := runLen pyIsSpace l
  match l.drop w with
  | '(' :: rest =>
    let low := pyLowerL rest
    if ("unabridged".toList).isPrefixOf low && (low.drop 10).head? = some ')' then
      some (w + 1 + 10 + 1, [])
    else none
  | _ => none

/-- Matcher for `(\w)-\s` (replaced by the word character and a space). -/
def dashArtifactM (l : List Char) : Option (Nat × List Char) :=
  match l with
  | c :: '-' :: d :: _ =>
    if isWordC c && pyIsSpace d then some (3, [c, ' ']) else none
  | _ => none

/-- Single anchored `re.sub(r"-$", "", s)`. -/
def stripTrailingDash (l : List Char) : List Char :=
  if l.getLast? = some '-' then l.dropLast else l

/-- The always-applied title cleanup block of `parse_path`
(braces, bitrates, audiobook/unabridged suffixes, dash artifacts). -/
def cleanTitleJunk (title : List Char) : List Char :=
  let t := subAll braceJunkM title
  let t := subAll bitrateParenM t
  let t := subAll codecBitrateM t
  let t := subAll audioBookParenM t
  let t := subAll unabridgedParenM t
  let t := subAll dashArtifactM t
  pyStripL (stripTrailingDash t)

/-- The optional position suffix inside the parenthesised-series pattern:
`\s*[-,]\s*(?:Book|Day|#)\s*([\d.]+)` anchored to the end of the body. -/
def sepMatchParen (s : List Char) : Option (List Char) :=
  let w := runLen pyIsSpace s
  match s.drop w with
  | c :: rest =>
    if c = '-' || c = ',' then
      let r2 := rest.drop (runLen pyIsSpace rest)
      let afterKw : Option (List Char) :=
        if ("Book".toList).isPrefixOf r2 then some (r2.drop 4)
        else if ("Day".toList).isPrefixOf r2 then some (r2.drop 3)
        else if ("#".toList).isPrefixOf r2 then some (r2.drop 1)
        else none
      match afterKw with
      | some r3 =>
        let r4 := r3.drop (runLen pyIsSpace r3)
        let dr := runLen (fun c => isDigitC c || c = '.') r4
        if 1 ≤ dr && r4.drop dr = [] then some (r4.take dr) else none
      | none => none
    else none
  | [] => none

/-- Lazy split of a parenthesised body into `([^)]+?)` and the optional
position suffix: the first group grows until the suffix matches to the end. -/
def parenBodySplit (body : List Char) : List Char × Option (List Char) :=
  go [] body
where
  go (g1rev remaining : List Char) : List Char × Option (List Char) :=
    match (if g1rev ≠ [] then sepMatchParen remaining else none) with
    | some g2 => (g1rev.reverse, some g2)
    | none =>
      match remaining with
      | [] => (body, none)
      | c :: rest => go (c :: g1rev) rest

/-- Matcher for the parenthesised-series pattern of `parse_path`:
`\s*-?\s*\(([^)]+?)(?:\s*[-,]\s*(?:Book|Day|#)\s*([\d.]+))?\)`. -/
def parenMatchAt (l : List Char) : Option (List Char × Option (List Char)) :=
  let a1 := l.drop (runLen pyIsSpace l)
  let a3 :=
    match a1 with
    | '-' :: r => r.drop (runLen pyIsSpace r)
    | _ => a1
  match a3 with
  | '(' :: rest =>
    let b := runLen (fun c => c ≠ ')') rest
    if 1 ≤ b && (rest.drop b).head? = some ')' then some (parenBodySplit (rest.take b))
    else none
  | _ => none

/-- Leftmost search for the parenthesised-series pattern; returns the match
start offset and the two groups. -/
def searchParenSeries (title : List Char) : Option (Nat × List Char × Option (List Char)) :=
  (findFirstIdx parenMatchAt title).map (fun p => (p.1, p.2.1, p.2.2))

/-- Matcher for the lazy `\s*\(.*?\)` (removed): body up to the first `)`,
failing when a newline intervenes (`.` does not match newlines). -/
def parenLazyM (l : List Char) : Option (Nat × List Char) :=
  let w := runLen pyIsSpace l
  match l.drop w with
  | '(' :: rest =>
    let b := runLen (fun c => c ≠ ')' && c ≠ '\n') rest
    if (rest.drop b).head? = some ')' then some (w + 1 + b + 1, []) else none
  | _ => none

/-- Matcher for the lazy `\s*\[.*?\]` (removed). -/
def bracketLazyM (l : List Char) : Option (Nat × List Char) :=
  let w := runLen pyIsSpace l
  match l.drop w with
  | '[' :: rest =>
    let b := runLen (fun c => c ≠ ']' && c ≠ '\n') rest
    if (rest.drop b).head? = some ']' then some (w + 1 + b + 1, []) else none
  | _ => none

/-- Collection keywords of `_looks_like_author`. -/
def collectionWords : List (List Char) :=
  ["trilogy".toList, "series".toList, "saga".toList, "collection".toList,
   "volumes".toList, "books".toList, "chronicle".toList, "chronicles".toList,
   "standalones".toList, "chaptered".toList, "audiobook".toList,
   "all chaptered".toList, "stuff".toList, "random".toList, "newbooks".toList,
   "output".toList, "input".toList, "incoming".toList, "processing".toList,
   "completed".toList, "failed".toList, "queue".toList, "pipeline".toList]

/-- Heuristic `_looks_like_author`. -/
def looksLikeAuthor (name : List Char) : Bool :=
  let lower := pyLowerL name
  if collectionWords.any (fun w => hasSub lower w) then false
  else if name.any isDigitC then false
  else if 50 < name.length then false
  else
    let words := pySplitWS name
    if 5 < words.length then false
    else if ("the ".toList).isPrefixOf lower || ("a ".toList).isPrefixOf lower
        || ("an ".toList).isPrefixOf lower then false
    else if words.length = 1 then false
    else true

/-- Helper `_extract_author`: strip parenthesised and bracketed suffixes and
split off series info at the first `" - "`. -/
def extract_author (name : List Char) : List Char :=
  let cleaned := pyStripL (subAll parenLazyM name)
  let cleaned := pyStripL (subAll bracketLazyM cleaned)
  match splitFirstSeq (" - ".toList) cleaned with
  | some (lft, _) =>
    let candidate := pyStripL lft
    if candidate.any isDigitC then (if cleaned ≠ [] then cleaned else name)
    else candidate
  | none => if cleaned ≠ [] then cleaned else name

/-- Helper `_clean_collection_suffix`. -/
def cleanCollectionSuffix (name : List Char) : List Char :=
  pyStripL (subAll parenLazyM (subAll bracketLazyM name))

/-- Helper `_clean_title_fallback`. -/
def cleanTitleFallback (basename : List Char) : List Char :=
  let t := subAll bracketNumM basename
  let t := stripLeadingNum t
  let t := pyStripL (collapseWS t)
  if t ≠ [] then t else basename

/-- Anchored `re.sub(r"^\d{4}\s*-\s*", "", stem)`. -/
def stripYearDash (l : List Char) : List Char :=
  let d4 := l.take 4
  if d4.length = 4 && d4.all isDigitC then
    let a := l.drop 4
    match a.drop (runLen pyIsSpace a) with
    | '-' :: r => r.drop (runLen pyIsSpace r)
    | _ => l
  else l

/-! ### Posix path helpers (pure model of `pathlib.PurePosixPath`) -/

/-- Path components, dropping empty pieces and `"."` as `pathlib` does. -/
def pathComponents (s : List Char) : List (List Char) :=
  (s.splitOnP (· = '/')).filter (fun c => c ≠ [] && c ≠ ['.'])

/-- Final path component (`Path.name`, empty for `/` and `.`). -/
def pathName (s : List Char) : List Char := ((pathComponents s).reverse.head?).getD []

/-- Stem of a filename (`PurePath.stem`): name minus its last suffix, where a
suffix requires a dot strictly inside the name. -/
def stemOf (name : List Char) : List Char :=
  match rsplitLastChar '.' name with
  | some (before, after) => if before ≠ [] && after ≠ [] then before else name
  | none => name

/-- Name of the parent directory, `""` when the parent is `/` or `.`. -/
def parentNameOf (s : List Char) : List Char :=
  ((pathComponents s).reverse.get? 1).getD []

/-- Name of the grandparent directory, `""` when it is `/` or `.`. -/
def gpNameOf (s : List Char) : List Char :=
  ((pathComponents s).reverse.get? 2).getD []

/-- Name of the great-grandparent directory, `""` when it is `/` or `.`. -/
def ggpNameOf (s : List Char) : List Char :=
  ((pathComponents s).reverse.get? 3).getD []

/-! ### parse_path -/

/-- Parse result of `parse_path` (`ParsedMetadata` in the spec): empty string
means unknown. -/
structure ParsedMetadata where
  author : String
  title : String
  series : String
  position : String
deriving DecidableEq, Repr

/-- Position normalisation of `_build_result`: `str(int(pos))` for digit
strings, i.e. stripping leading zeros. -/
def stripLeadingZeros (l : List Char) : List Char :=
  let t := l.dropWhile (· = '0')
  if t = [] then ['0'] else t

/-- The `_build_result` helper of `ops/organize.py`. -/
def buildResult (author title series position : List Char) : ParsedMetadata :=
  let pos := pyStripL position
  let pos := if pyIsDigitL pos then stripLeadingZeros pos else pos
  { author := String.mk (pyStripL author)
    title := String.mk (pyLstripCharsL ['-', ' '] (pyStripL title))
    series := String.mk (pyRstripCharsL ['-', ' '] (pyStripL series))
    position := String.mk pos }

/-- The author/series dedup step of `parse_path` (source lines 228-231):
clear the author when it equals the series case-insensitively. -/
def dedupAuthorSeries (author series : List Char) : List Char :=
  if author ≠ [] && series ≠ [] && pyLowerL author = pyLowerL series then [] else author

/-- Helper `_title_from_audio_file`, modelled on the sorted list of audio
files found under the source directory (the only filesystem data it reads);
the head of the list is the first audio file and the argument strings are the
file stems in sorted order. -/
def titleFromAudioFiles (files : List String) : List Char :=
  match files.head? with
  | none => []
  | some f =>
    let stem := stripHash (stemOf (pathName f.toList))
    let cleaned := pyStripL (stripYearDash stem)
    if genericBasenames.contains (pyLowerL cleaned) then []
    else if cleaned ≠ [] && cleaned.all isDigitC then []
    else cleaned

/-- Patterns B2, B and G of `parse_path`: the (series, position, title)
extracted from the parse target, empty when none of the three match. -/
def ppfPatterns (parse_target : List Char) : List Char × List Char × List Char :=
  -- Pattern B2: "Name N - Title"
  let (series1, position1, title1) :=
    match matchB2 parse_target with
    | some (g1, d, g3) => (pyStripL g1, pyStripL d, pyStripL g3)
    | none => ([], [], [])
  -- Pattern B: "SeriesName NN Title", rejected for titles under 3 characters
  let (series2, position2, title2) :=
    if title1 ≠ [] then (series1, position1, title1)
    else
      match matchB parse_target with
      | some (g1, d, g3) =>
        let pt := pyStripL g3
        if 3 ≤ pt.length then (pyStripL g1, pyStripL d, pt)
        else (series1, position1, title1)
      | none => (series1, position1, title1)
  -- Pattern G: "Series [NN] Title"
  if title2 ≠ [] then (series2, position2, title2)
  else
    match matchG parse_target with
    | some (g1, d, g3) => (pyStripL g1, pyStripL d, pyStripL g3)
    | none => (series2, position2, title2)

/-- Patterns E and C and the author-title split of `parse_path`: the
(author, series, title) refinement from the ancestor directory names, given
the series and title extracted by patterns B2/B/G. -/
def ppfAuthorSeries (basename parent_name gp_name ggp_name : List Char)
    (series3 title3 : List Char) : List Char × List Char × List Char :=
  -- Pattern E: split "Author - Series" grandparents
  let (author4, series4) :=
    if gp_name ≠ [] then
      match splitFirstSeq (" - ".toList) gp_name with
      | some (lft, rgt) =>
        let gp_author := pyStripL lft
        let gp_series := pyStripL rgt
        if !labelSuffixes.contains (pyLowerL gp_series) && !gp_author.any isDigitC then
          (gp_author, if series3 = [] then gp_series else series3)
        else ([], series3)
      | none => ([], series3)
    else ([], series3)
  -- Pattern C: grandparent (or great-grandparent) as author
  let (author5, series5) :=
    if parent_name = basename && gp_name ≠ [] then
      if author4 = [] then
        let extracted := extract_author gp_name
        if looksLikeAuthor extracted then (extracted, series4) else (author4, series4)
      else (author4, series4)
    else if gp_name ≠ [] && author4 = [] then
      if looksLikeAuthor gp_name then (extract_author gp_name, series4)
      else if ggp_name ≠ [] && looksLikeAuthor ggp_name then
        (extract_author ggp_name,
         if series4 = [] then cleanCollectionSuffix gp_name else series4)
      else (author4, series4)
    else (author4, series4)
  -- Author-Title split from parent
  let (author6, title6) :=
    if author5 = [] && series5 = [] && parent_name.contains '-' && title3 = [] then
      if !searchDashNum parent_name then
        match splitFirstChar '-' parent_name with
        | (lft, some rgt) =>
          let ca := pyStripL lft
          let ct := pyStripL rgt
          if looksLikeAuthor ca && 3 ≤ ct.length then (ca, ct) else (author5, title3)
        | _ => (author5, title3)
      else (author5, title3)
    else (author5, title3)
  (author6, series5, title6)

/-- The Pattern-D title cleanup of `parse_path` plus the always-applied junk
cleanup: the title derived from the basename when none was extracted. -/
def ppfTitleClean (basename author7 series5 title6 : List Char) : List Char :=
  let title7 :=
    if title6 = [] then
      let t := basename
      let t :=
        if author7 ≠ [] && (pyLowerL author7).isPrefixOf (pyLowerL t) then
          pyStripL (pyLstripCharsL [' ', '-'] (t.drop author7.length))
        else t
      let t :=
        if series5 ≠ [] && (pyLowerL series5).isPrefixOf (pyLowerL t) then
          pyStripL (pyLstripCharsL [' ', '-'] (t.drop series5.length))
        else t
      let t := subAll bracketNumM t
      let t := match fullBracketTitle (pyStripL t) with | some mid => mid | none => t
      let t := stripLeadingNum t
      pyStripL (collapseWS t)
    else title6
  cleanTitleJunk title7

/-- The parenthesised-series extraction of `parse_path`: (title, series,
position) pulled out of a trailing `(...)` group when no series is known. -/
def ppfParen (title8 series5 position3 : List Char) :
    List Char × List Char × List Char :=
  if series5 = [] then
    match searchParenSeries title8 with
    | some (startIdx, g1, g2) =>
      let candidate := pyRstripCharsL [' ', '-', ','] (pyStripL g1)
      if candidate.length = 4 && candidate.all isDigitC then
        -- a bare year is an edition differentiator, not a series
        (pyRstripCharsL [' ', '-'] (pyStripL (title8.take startIdx)), [],
         if position3 = [] then candidate else position3)
      else if 3 ≤ candidate.length && !labelSuffixes.contains (pyLowerL candidate) then
        (pyRstripCharsL [' ', '-'] (pyStripL (title8.take startIdx)), candidate,
         match g2 with
         | some d => if position3 = [] then d else position3
         | none => position3)
      else (title8, [], position3)
    | none => (title8, [], position3)
  else (title8, series5, position3)

/-- The author-only fallback of `parse_path` via the first audio filename
beneath the source directory. -/
def ppfAudio (source_dir : Option (List String))
    (author7 title10 parent_name : List Char) : List Char × List Char :=
  match source_dir with
  | some files =>
    if title10 ≠ [] then
      let isAuthorTitle := author7 ≠ [] && pyStripL title10 = pyStripL author7
      let isDirnameTitle := pyStripL title10 = pyStripL parent_name && looksLikeAuthor title10
      if isAuthorTitle || isDirnameTitle then
        let audio_title := titleFromAudioFiles files
        if audio_title ≠ [] then
          (if author7 = [] && isDirnameTitle then title10 else author7, audio_title)
        else (author7, title10)
      else (author7, title10)
    else (author7, title10)
  | none => (author7, title10)

/-- The non-Pattern-A remainder of `parse_path` (everything after the early
Pattern-A return): patterns B2/B/G/E/C, the author-title split, dedup,
Pattern-D cleanup, parenthesised-series extraction and the audio-file
fallback, on the already-computed basename, parent/grandparent names and
marker-normalised parse target. -/
def parsePathFallback (basename parent_name gp_name ggp_name parse_target : List Char)
    (source_dir : Option (List String)) : ParsedMetadata :=
  let (series3, position3, title3) := ppfPatterns parse_target
  let (author6, series5, title6) :=
    ppfAuthorSeries basename parent_name gp_name ggp_name series3 title3
  -- Dedup: author == series means no real author in the path
  let author7 := dedupAuthorSeries author6 series5
  let title8 := ppfTitleClean basename author7 series5 title6
  let (title9, series9, position9) := ppfParen title8 series5 position3
  let title10 := if title9 = [] then cleanTitleFallback basename else title9
  let (author10, title11) := ppfAudio source_dir author7 title10 parent_name
  buildResult author10 title11 series9 position9

/-- The basename computation of `parse_path` including the Pattern-F recovery
from generic basenames.  `p.stem` is used for the basename: the source's
`p.stem if p.is_file() or p.suffix else p.name` coincides with `p.stem` in
every branch, since `stem = name` exactly when the suffix is empty. -/
def basenameOf (source_path : List Char) : List Char :=
  let basename0 := stripHash (stemOf (pathName source_path))
  if genericBasenames.contains (pyLowerL basename0) then
    let parent_raw := stripHash (parentNameOf source_path)
    if parent_raw ≠ [] && !genericBasenames.contains (pyLowerL parent_raw) then
      stripLabelSuffix parent_raw
    else
      let gp_raw := stripHash (gpNameOf source_path)
      if gp_raw ≠ [] then stripLabelSuffix gp_raw else basename0
  else basename0

/-- The marker-normalised parse target of `parse_path`: the parent directory
name when present, the (Pattern-F adjusted) basename otherwise. -/
def parseTargetOf (source_path : List Char) : List Char :=
  normalizeMarkers
    (if stripHash (parentNameOf source_path) ≠ []
     then stripHash (parentNameOf source_path) else basenameOf source_path)

/-- The path parser `parse_path` of `ops/organize.py`.  `source_dir` is
modelled as the sorted list of audio files beneath the source directory
(`none` when the Python argument is `None`). -/
def parse_path_impl (source_path : List Char) (source_dir : Option (List String)) :
    ParsedMetadata :=
  let basename := basenameOf source_path
  let parent_name := stripHash (parentNameOf source_path)
  let gp_name := stripHash (gpNameOf source_path)
  let ggp_name := stripHash (ggpNameOf source_path)
  let parse_target := parseTargetOf source_path
  -- Pattern A ("-#N-" marker); `re.search` succeeds iff `finditer` is non-empty
  match hm : iterMarkers parse_target 0 with
  | m0 :: ms =>
    let lastM := (m0 :: ms).getLast (by simp)
    let position := lastM.2.1
    let title := pyStripL (parse_target.drop lastM.2.2)
    let pre := parse_target.take lastM.1
    let (author, series) :=
      if searchDashHash pre then
        match (pre.findIdx? (· = '-')) with
        | some ae =>
          let author := pyStripL (pre.take ae)
          let series := pyStripL (pre.drop (ae + 1))
          (author, pyStripL (splitMarkerFirst series))
        | none => ([], [])  -- unreachable: a dash-hash match implies a dash
      else
        match rsplitLastChar '-' pre with
        | some (a, s) => (pyStripL a, pyStripL s)
        | none => (pyStripL pre, [])
    buildResult author title series position
  | [] =>
    parsePathFallback basename parent_name gp_name ggp_name parse_target source_dir

/-- String-level wrapper for `parse_path`. -/
def parse_path (source_path : String) (source_dir : Option (List String) := none) :
    ParsedMetadata :=
  parse_path_impl source_path.toList source_dir

/-! ## sanitize.py -/

/-- Characters replaced by `_` in `sanitize_filename`. -/
def unsafeChars : List Char := ['/', '\\', ':', '"', '*', '?', '<', '>', '|', ';']

/-- Matcher for `[/\\:"*?<>|;]+` (replaced by a single underscore). -/
def unsafeRunM (l : List Char) : Option (Nat × List Char) :=
  let r := runLen (· ∈ unsafeChars) l
  if 1 ≤ r then some (r, ['_']) else none

/-- Matcher for `__+` (collapsed to a single underscore). -/
def doubleUnderscoreM (l : List Char) : Option (Nat × List Char) :=
  let r := runLen (· = '_') l
  if 2 ≤ r then some (r, ['_']) else none

/-- UTF-8 byte length of a character list (`len(s.encode("utf-8"))`). -/
def utf8Len (l : List Char) : Nat := l.foldl (fun n c => n + c.utf8Size) 0

/-- Fuel-driven truncation loop of `sanitize_filename`: drop trailing stem
characters while the UTF-8 byte length exceeds 255. -/
def truncTo255F : Nat → List Char → List Char → List Char
  | 0, stem, ext => stem ++ ext
  | fuel + 1, stem, ext =>
    if 255 < utf8Len (stem ++ ext) && stem ≠ [] then truncTo255F fuel stem.dropLast ext
    else stem ++ ext

def truncTo255 (stem ext : List Char) : List Char := truncTo255F stem.length stem ext

/-- The `sanitize_filename` helper of `sanitize.py`. -/
def sanitize_filename (l : List Char) : List Char :=
  let s := subAll unsafeRunM l
  let s := dropLeading (fun c => c = '.' || c = '_') s
  let s := dropTrailing (fun c => c = '.' || c = '_') s
  let s := subAll doubleUnderscoreM s
  if 255 < utf8Len s then
    let stem := stemOf s
    let ext := s.drop stem.length
    if ext ≠ [] then truncTo255 stem ext else truncTo255 s []
  else s

def sanitizeFilenameS (s : String) : String := String.mk (sanitize_filename s.toList)

/-! ## Folder-name normalisation and near-match (ops/organize.py helpers) -/

/-- Matcher for `\s*\(\d{4}\)` (removed). -/
def yearParenM (l : List Char) : Option (Nat × List Char) :=
  let w := runLen pyIsSpace l
  match l.drop w with
  | '(' :: rest =>
    if (rest.take 4).length = 4 && (rest.take 4).all isDigitC
        && (rest.drop 4).head? = some ')' then
      some (w + 6, [])
    else none
  | _ => none

/-- Matcher for `\s*\([^)]*\)` (removed). -/
def anyParenM (l : List Char) : Option (Nat × List Char) :=
  let w := runLen pyIsSpace l
  match l.drop w with
  | '(' :: rest =>
    let b := runLen (fun c => c ≠ ')') rest
    if (rest.drop b).head? = some ')' then some (w + 1 + b + 1, []) else none
  | _ => none

/-- The `_normalize_for_compare` helper of `ops/organize.py`. -/
def normalizeForCompare (name : List Char) : List Char :=
  let s := pyLowerL name
  let s := subAll yearParenM s
  let s := subAll anyParenM s
  let s := s.filter (fun c => isWordC c || pyIsSpace c)
  let s := pyStripL (collapseWS s)
  if s.getLast? = some 's' then s.dropLast else s

def normalizeForCompareS (s : String) : String := String.mk (normalizeForCompare s.toList)

/-- The `_is_near_match` helper of `ops/organize.py`, on normalised names.
Token sets are modelled as deduplicated token lists. -/
def isNearMatch (desired_norm existing_norm : List Char) : Bool :=
  if desired_norm = existing_norm then true
  else
    let dT := (pySplitWS desired_norm).dedup
    let eT := (pySplitWS existing_norm).dedup
    if dT.length < 2 && eT.length < 2 then false
    else
      let smaller := if dT.length ≤ eT.length then dT else eT
      let larger := if dT.length ≤ eT.length then eT else dT
      if smaller.all (· ∈ larger) && 2 ≤ smaller.length then true
      else
        let inter := dT.filter (· ∈ eT)
        let union := dT ++ eT.filter (· ∉ dT)
        decide ((7 : ℚ) / 10 ≤ (inter.length : ℚ) / (union.length : ℚ))

/-- Abstract filesystem snapshot used by the index-free `_reuse_existing`:
directory test, existence test, and `iterdir()` listing (name, is-directory)
in filesystem order. -/
structure FS where
  isDir : List String → Bool
  pathExists : List String → Bool
  listing : List String → List (String × Bool)

/-- The filesystem-scanning `_reuse_existing` of `ops/organize.py`. -/
def fsReuseExisting (fs : FS) (parent : List String) (desired : String) : String :=
  if !fs.isDir parent then desired
  else if fs.pathExists (parent ++ [desired]) then desired
  else
    let dn := normalizeForCompare desired.toList
    match (fs.listing parent).find?
        (fun e => e.2 && isNearMatch dn (normalizeForCompare e.1.toList)) with
    | some e => e.1
    | none => desired

/-! ## library_index.py -/

/-- Matcher for `([a-z])\.([a-z])` (replaced by `\1. \2`). -/
def initialsDotM (l : List Char) : Option (Nat × List Char) :=
  match l with
  | c1 :: '.' :: c2 :: _ =>
    if ('a' ≤ c1 && c1 ≤ 'z') && ('a' ≤ c2 && c2 ≤ 'z') then
      some (3, [c1, '.', ' ', c2])
    else none
  | _ => none

/-- The `_normalize_author` helper of `library_index.py` (initials-aware). -/
def normalizeAuthorIdx (name : List Char) : List Char :=
  let s := pyStripL (pyLowerL name)
  let s := subAll initialsDotM s
  let s := subAll initialsDotM s
  let s := s.filter (· ≠ '.')
  pyStripL (collapseWS s)

/-- Role-credit keywords of `_clean_author_name`. -/
def roleWords : List (List Char) :=
  ["editor".toList, "translator".toList, "narrator".toList,
   "foreword".toList, "introduction".toList]

/-- Matcher for the role-suffix pattern
`,?\s+\w+\s*-\s*(editor|translator|narrator|foreword|introduction)\b.*$`:
on success everything from the match start is deleted. -/
def roleSuffixM (l : List Char) : Option Unit :=
  let afterComma := match l with | ',' :: r => r | _ => l
  let w1 := runLen pyIsSpace afterComma
  if w1 = 0 then none else
  let a1 := afterComma.drop w1
  let wr := runLen isWordC a1
  if wr = 0 then none else
  let a2 := a1.drop wr
  let a3 := a2.drop (runLen pyIsSpace a2)
  match a3 with
  | '-' :: r =>
    let a4 := r.drop (runLen pyIsSpace r)
    let low := pyLowerL a4
    match roleWords.find? (fun kw => kw.isPrefixOf low) with
    | some kw =>
      match (low.drop kw.length).head? with
      | some x => if isWordC x then none else some ()
      | none => some ()
    | none => none
  | _ => none

/-- Matcher for `\s*\((Author|Editor|Translator|Narrator)\)` (removed). -/
def roleParenM (l : List Char) : Option (Nat × List Char) :=
  let w := runLen pyIsSpace l
  match l.drop w with
  | '(' :: rest =>
    let low := pyLowerL rest
    let kws := ["author".toList, "editor".toList, "translator".toList, "narrator".toList]
    match kws.find? (fun kw => kw.isPrefixOf low) with
    | some kw =>
      if (low.drop kw.length).head? = some ')' then some (w + 1 + kw.length + 1, [])
      else none
    | none => none
  | _ => none

/-- The `_clean_author_name` helper of `library_index.py`. -/
def cleanAuthorName (name : List Char) : List Char :=
  let cut :=
    match findFirstIdx roleSuffixM name with
    | some (i, _) => name.take i
    | none => name
  pyStripL (subAll roleParenM cut)

/-- Matcher for the author-separator pattern `,\s*|\s+and\s+`. -/
def authorSepM (l : List Char) : Option Unit :=
  match l with
  | ',' :: _ => some ()
  | _ =>
    let w := runLen pyIsSpace l
    if 1 ≤ w && ("and".toList).isPrefixOf (l.drop w)
        && 1 ≤ runLen pyIsSpace (l.drop (w + 3)) then
      some ()
    else none

/-- The `_extract_surname` helper of `library_index.py`. -/
def extractSurname (name : List Char) : List Char :=
  if name = [] then []
  else
    let cleaned := cleanAuthorName name
    let first_author :=
      match findFirstIdx authorSepM cleaned with
      | some (i, _) => cleaned.take i
      | none => cleaned
    let first_author := pyStripL first_author
    match (pySplitWS first_author).reverse.head? with
    | none => []
    | some w => pyRstripCharsL ['.', ',', ';', ':'] (pyLowerL w)

/-- The in-memory state of a `LibraryIndex` that the verified operations
touch: the per-parent folder maps (normalised name → actual name, in
insertion order), the surname index, and the author alias table. -/
structure LibraryIndex where
  folders : List String → Option (List (String × String))
  authorsBySurname : String → List String
  authorAliases : String → Option String

/-- A `LibraryIndex` over an empty library with no aliases. -/
def LibraryIndex.empty : LibraryIndex :=
  { folders := fun _ => none
    authorsBySurname := fun _ => []
    authorAliases := fun _ => none }

/-- The `_save_alias` method: update the in-memory alias dict (the JSON
persistence step writes the same data to disk and cannot fail the update). -/
def LibraryIndex.save_alias (idx : LibraryIndex) (variant canonical : String) :
    LibraryIndex :=
  if variant = canonical then idx
  else
    { idx with
      authorAliases := fun k => if k = variant then some canonical else idx.authorAliases k }

/-- The `reuse_existing` method of `LibraryIndex`. -/
def LibraryIndex.reuse_existing (idx : LibraryIndex) (parent : List String)
    (desired : String) : String :=
  match idx.folders parent with
  | none => desired
  | some folder_map =>
    if folder_map.any (fun p => p.2 = desired) then desired
    else
      let desired_norm := normalizeForCompare desired.toList
      match folder_map.find? (fun p => p.1.toList = desired_norm) with
      | some p => p.2
      | none =>
        match folder_map.find? (fun p => isNearMatch desired_norm p.1.toList) with
        | some p => p.2
        | none => desired

/-- The `match_author` method of `LibraryIndex`: returns the canonical name
together with the updated index (alias saves). -/
def LibraryIndex.match_author (idx : LibraryIndex) (desired : String) :
    String × LibraryIndex :=
  if desired = "" then (desired, idx)
  else if (idx.authorAliases desired).getD "" ≠ "" then
    ((idx.authorAliases desired).getD "", idx)
  else
    let cleaned := String.mk (cleanAuthorName desired.toList)
    let aliasHit : Option String :=
      if cleaned ≠ desired then
        match idx.authorAliases cleaned with
        | some c => if c ≠ "" then some c else none
        | none => none
      else none
    match aliasHit with
    | some c => (c, idx.save_alias desired c)
    | none =>
      let surname := String.mk (extractSurname cleaned.toList)
      if surname = "" then (desired, idx)
      else
        let candidates := idx.authorsBySurname surname
        if candidates = [] then (desired, idx)
        else if candidates.contains desired then (desired, idx)
        else if candidates.contains cleaned then (cleaned, idx.save_alias desired cleaned)
        else
          let desired_norm := normalizeAuthorIdx cleaned.toList
          match candidates.find? (fun e => normalizeAuthorIdx e.toList = desired_norm) with
          | some e => (e, idx.save_alias desired e)
          | none =>
            let dns := normalizeForCompare cleaned.toList
            match candidates.find? (fun e => normalizeForCompare e.toList = dns) with
            | some e => (e, idx.save_alias desired e)
            | none =>
              match candidates with
              | [c] => (c, idx.save_alias desired c)
              | _ => (desired, idx)

/-- The `register_author` method. -/
def LibraryIndex.register_author (idx : LibraryIndex) (author_name : String) :
    LibraryIndex :=
  let surname := String.mk (extractSurname author_name.toList)
  if surname ≠ "" then
    let existing := idx.authorsBySurname surname
    if author_name ∈ existing then idx
    else
      { idx with
        authorsBySurname := fun k =>
          if k = surname then existing ++ [author_name] else idx.authorsBySurname k }
  else idx

/-- The `register_new_folder` method. -/
def LibraryIndex.register_new_folder (idx : LibraryIndex) (parent : List String)
    (folder_name : String) : LibraryIndex :=
  let m := (idx.folders parent).getD []
  let norm := String.mk (normalizeForCompare folder_name.toList)
  let m' :=
    if m.any (fun p => p.1 = norm) then
      m.map (fun p => if p.1 = norm then (p.1, folder_name) else p)
    else m ++ [(norm, folder_name)]
  { idx with folders := fun k => if k = parent then some m' else idx.folders k }

/-! ## build_plex_path (ops/organize.py) -/

/-- Test for `re.fullmatch(r"\d{4}", position)`. -/
def yearFour (s : String) : Bool := s.toList.length = 4 && s.toList.all isDigitC

/-- The `_path_components` helper: `(parent, child)` pairs between root and
dest, empty when dest is not under root (`relative_to` raising). -/
def pathComponentPairs (root dest : List String) : List (List String × String) :=
  if root.isPrefixOf dest then
    (dest.drop root.length).foldl
      (fun (acc : List (List String × String) × List String) part =>
        (acc.1 ++ [(acc.2, part)], acc.2 ++ [part]))
      ([], root)
    |>.1
  else []

/-- The four-way branch block of `build_plex_path` that assembles the
result path (author/series levels, `_unsorted` fallback, near-match reuse). -/
def bppResult (reuse : List String → String → String) (nfs : List String)
    (author series_name title title_folder : String) (hasBookNum : Bool) :
    List String :=
  if author ≠ "" && series_name ≠ "" then
    let base := nfs ++ [author]
    let series_name := reuse base series_name
    let title_dir := base ++ [series_name]
    let title_folder := if !hasBookNum then reuse title_dir title_folder else title_folder
    title_dir ++ [title_folder]
  else if author ≠ "" then
    let base := nfs ++ [author]
    let title := reuse base title
    base ++ [title]
  else if series_name ≠ "" then
    let base := nfs ++ ["_unsorted"]
    let series_name := reuse base series_name
    let title_dir := base ++ [series_name]
    let title_folder := if !hasBookNum then reuse title_dir title_folder else title_folder
    title_dir ++ [title_folder]
  else
    let base := nfs ++ ["_unsorted"]
    let title := reuse base title
    base ++ [title]

/-- The path-assembly stage of `build_plex_path`, after author
canonicalisation: series==title drop, year-edition detection, near-match
reuse selection, book-number prefixing, branch assembly, year append.
All metadata arguments are the already-sanitised strings. -/
def bppAssemble (fs : FS) (index1 : Option LibraryIndex) (nfs : List String)
    (author title series0 position : String) : List String :=
  -- skip series folder when series == title
  let series_name := if series0 ≠ "" && pyLowerL series0.toList = pyLowerL title.toList
    then "" else series0
  let is_year_edition := position ≠ "" && yearFour position && series_name = ""
  let reuse := fun (parent : List String) (desired : String) =>
    match index1 with
    | some idx => idx.reuse_existing parent desired
    | none => fsReuseExisting fs parent desired
  -- "Book N - Title" folder name when in a series with a non-year position
  let hasBookNum := series_name ≠ "" && position ≠ "" && !yearFour position
  let title_folder := if hasBookNum then "Book " ++ position ++ " - " ++ title else title
  let result := bppResult reuse nfs author series_name title title_folder hasBookNum
  if is_year_edition then result ++ [position] else result

/-- The author-canonicalisation stage of `build_plex_path`:
`if author and index: author = index.match_author(author)`. -/
def bppAuthorIndex (index : Option LibraryIndex) (author0 : String) :
    String × Option LibraryIndex :=
  match index with
  | some idx =>
    if author0 ≠ "" then
      let (a, idx') := idx.match_author author0
      (a, some idx')
    else (author0, some idx)
  | none => (author0, none)

/-- The `build_plex_path` function of `ops/organize.py`, staged into author
canonicalisation (`bppAuthorIndex`), path assembly (`bppAssemble`) and index
registration.  Paths are component lists; the returned path and the updated
index are both produced.  `fs` backs the index-free `_reuse_existing`
fallback. -/
def build_plex_path (fs : FS) (nfs_output_dir : List String)
    (metadata : ParsedMetadata) (index : Option LibraryIndex) :
    List String × Option LibraryIndex :=
  let author0 := if metadata.author ≠ "" then sanitizeFilenameS metadata.author else ""
  let title := if metadata.title ≠ "" then sanitizeFilenameS metadata.title else "Unknown"
  let series0 := if metadata.series ≠ "" then sanitizeFilenameS metadata.series else ""
  let position := metadata.position
  -- canonicalize author against existing library folders
  let (author, index1) := bppAuthorIndex index author0
  let result := bppAssemble fs index1 nfs_output_dir author title series0 position
  let index2 :=
    match index1 with
    | some idx =>
      let idx := if author ≠ "" then idx.register_author author else idx
      some ((pathComponentPairs nfs_output_dir result).foldl
        (fun i p => i.register_new_folder p.1 p.2) idx)
    | none => none
  (result, index2)

/-! ## api/search.py — fuzzy candidate scoring -/

def pyLowerS (s : String) : String := String.mk (pyLowerL s.toList)

def pyUpperS (s : String) : String := String.mk (pyUpperL s.toList)

/-- A catalog search result, restricted to the fields `score_results` reads. -/
structure Candidate where
  asin : String
  title : String
  authors : List String
deriving DecidableEq, Repr

/-- A candidate annotated with its fuzzy score. -/
structure ScoredCandidate where
  cand : Candidate
  score : ℚ
deriving DecidableEq, Repr

/-- Round half to even to the nearest integer (Python `round`). -/
def roundHalfEven (x : ℚ) : ℤ :=
  let f := ⌊x⌋
  let r := x - f
  if r < 1 / 2 then f
  else if 1 / 2 < r then f + 1
  else if f % 2 = 0 then f else f + 1

/-- Python `round(x, 1)`: round to one decimal place. -/
def round1 (q : ℚ) : ℚ := (roundHalfEven (q * 10) : ℚ) / 10

/-- Python `max(xs, default=d)`. -/
def pyMaxD : List ℚ → ℚ → ℚ
  | [], d => d
  | x :: xs, _ => xs.foldl max x

/-- The `score_results` function of `api/search.py`.  The external rapidfuzz
similarity functions `fuzz.token_sort_ratio` and `fuzz.partial_ratio` are
abstracted as the parameters `tokenSortSim` and `partialSim`; scores are exact
rationals and the final Python `list.sort(key=score, reverse=True)` is the
stable descending `mergeSort`. -/
def score_results (tokenSortSim partialSim : String → String → ℚ)
    (results : List Candidate) (title_hint author_hint : String) :
    List ScoredCandidate :=
  let scored := results.enum.map (fun p =>
    let idx := p.1
    let r := p.2
    let title_score := tokenSortSim (pyLowerS title_hint) (pyLowerS r.title) * (6 / 10)
    let author_score : ℚ :=
      if author_hint ≠ "" then
        pyMaxD (r.authors.map (fun a => partialSim (pyLowerS author_hint) (pyLowerS a))) 0
          * (3 / 10)
      else 0
    let position_score : ℚ := max (10 - (idx : ℚ) * 2) 0
    ({ cand := r, score := round1 (title_score + author_score + position_score) } :
      ScoredCandidate))
  scored.mergeSort (fun a b => decide (b.score ≤ a.score))

/-! ## ai.py — needs_resolution and response parsing -/

/-- Embedded-tag metadata slice used by the resolver. -/
structure TagMeta where
  author : String
  title : String
  album : String
deriving DecidableEq, Repr

/-- The audible_result dict assembled in `stages/asin.py`. -/
structure AudibleRes where
  author : String
  asin : String
  title : String
  series : String
  position : String
  narrator : String
  year : String
deriving DecidableEq, Repr

/-- Author placeholders ignored by `needs_resolution`. -/
def placeholderAuthors : List (List Char) :=
  ["unknown".toList, "_unsorted".toList, "various".toList]

/-- The `needs_resolution` function of `ai.py`. -/
def needs_resolution (path_metadata : ParsedMetadata) (tag_metadata : TagMeta)
    (audible_result : Option AudibleRes) : Bool :=
  let sources := [path_metadata.author, tag_metadata.author,
    (match audible_result with | some r => r.author | none => "")]
  let authors := ((sources.map (fun s => pyLowerL (pyStripL s.toList))).filter
    (fun c => c ≠ [] && !placeholderAuthors.contains c)).dedup
  if 1 < authors.length then true
  else if authors.length = 0 then true
  else false

/-- The parsed AI metadata dict of `_parse_resolve_response` (absent keys as
`none`). -/
structure AIMeta where
  author : Option String
  title : Option String
  series : Option String
  position : Option String
deriving DecidableEq, Repr

/-- Value extraction shared by the four field branches:
`line.split(":", 1)[1].strip().strip('"').strip("'")`; the text after the
colon starts right after the (uppercased) field prefix. -/
def lineValue (afterColon : List Char) : List Char :=
  pyStripCharsL ['\''] (pyStripCharsL ['"'] (pyStripL afterColon))

/-- Extracted author value of a (stripped) response line: present when the
line starts with `AUTHOR:` case-insensitively and the value survives the
`UNKNOWN`/empty filter. -/
def authorVal (line : List Char) : Option (List Char) :=
  if ("AUTHOR:".toList).isPrefixOf (pyUpperL line) then
    let val := lineValue (line.drop 7)
    if val ≠ [] && pyUpperL val ≠ "UNKNOWN".toList then some val else none
  else none

/-- Extracted title value of a (stripped) response line. -/
def titleVal (line : List Char) : Option (List Char) :=
  if ("TITLE:".toList).isPrefixOf (pyUpperL line) then
    let val := lineValue (line.drop 6)
    if val ≠ [] && pyUpperL val ≠ "UNKNOWN".toList then some val else none
  else none

/-- Values treated as absent for the SERIES and POSITION fields. -/
def absentVals : List (List Char) :=
  ["NONE".toList, "UNKNOWN".toList, "N/A".toList, [] ]

/-- Extracted series value of a (stripped) response line. -/
def seriesVal (line : List Char) : Option (List Char) :=
  if ("SERIES:".toList).isPrefixOf (pyUpperL line) then
    let val := lineValue (line.drop 7)
    if val ≠ [] && !absentVals.contains (pyUpperL val) then some val else none
  else none

/-- Extracted position value of a (stripped) response line. -/
def positionVal (line : List Char) : Option (List Char) :=
  if ("POSITION:".toList).isPrefixOf (pyUpperL line) then
    let val := lineValue (line.drop 9)
    if val ≠ [] && !absentVals.contains (pyUpperL val) then some val else none
  else none

/-- One step of the response-parsing loop (the `elif` chain over one line). -/
def parseRespFold (acc : AIMeta) (line0 : List Char) : AIMeta :=
  let line := pyStripL line0
  if ("AUTHOR:".toList).isPrefixOf (pyUpperL line) then
    match authorVal line with
    | some v => { acc with author := some (String.mk v) }
    | none => acc
  else if ("TITLE:".toList).isPrefixOf (pyUpperL line) then
    match titleVal line with
    | some v => { acc with title := some (String.mk v) }
    | none => acc
  else if ("SERIES:".toList).isPrefixOf (pyUpperL line) then
    match seriesVal line with
    | some v => { acc with series := some (String.mk v) }
    | none => acc
  else if ("POSITION:".toList).isPrefixOf (pyUpperL line) then
    match positionVal line with
    | some v => { acc with position := some (String.mk v) }
    | none => acc
  else acc

/-- The `_parse_resolve_response` function of `ai.py`. -/
def parse_resolve_response (content : String) : Option AIMeta :=
  let lines := pySplitlines content.toList
  let result := lines.foldl parseRespFold ⟨none, none, none, none⟩
  match result.author with
  | none => none
  | some _ =>
    let result :=
      match result.title with
      | some t =>
        let t2 := pyStripL (subAll unabridgedParenM (subAll audioBookParenM t.toList))
        { result with title := some (String.mk t2) }
      | none => result
    let result :=
      match result.position with
      | some p =>
        if pyIsDigitL p.toList then
          { result with position := some (String.mk (stripLeadingZeros p.toList)) }
        else result
      | none => result
    some result

/-! ## stages/asin.py — the resolution/fallback step (lines 169-207) -/

/-- The metadata-resolution step of `stages/asin.py` `run`: decide whether AI
should fire, apply the AI result or fall back through the catalog and tag
authors.  `ai_metadata` is the value of `resolve(...)` (always `none` when no
client is configured, since `resolve` returns `None` for a `None` client);
`tag_author` equals `tag_metadata.author` by construction in `run`. -/
def asin_resolution_step (metadata : ParsedMetadata) (tag_metadata : TagMeta)
    (audible_result : Option AudibleRes) (ai_metadata : Option AIMeta)
    (ai_all : Bool) : ParsedMetadata :=
  let should_resolve := ai_all || needs_resolution metadata tag_metadata audible_result
  let tag_author := tag_metadata.author
  if should_resolve then
    match ai_metadata with
    | some ai =>
      let m := metadata
      let m := match ai.author with
        | some v => if v ≠ "" then { m with author := v } else m
        | none => m
      let m := match ai.title with
        | some v => if v ≠ "" then { m with title := v } else m
        | none => m
      let m := match ai.series with
        | some v => if v ≠ "" then { m with series := v } else m
        | none => m
      let m := match ai.position with
        | some v => if v ≠ "" then { m with position := v } else m
        | none => m
      m
    | none =>
      match audible_result with
      | some r =>
        if r.author ≠ "" then { metadata with author := r.author }
        else if tag_author ≠ "" then { metadata with author := tag_author }
        else metadata
      | none =>
        if tag_author ≠ "" then { metadata with author := tag_author } else metadata
  else
    match audible_result with
    | some r =>
      if r.author ≠ "" then
        let m := { metadata with author := r.author }
        let m := if r.title ≠ "" && m.title = "" then { m with title := r.title } else m
        let m := if r.series ≠ "" && m.series = "" then { m with series := r.series } else m
        let m := if r.position ≠ "" && m.position = "" then { m with position := r.position }
          else m
        m
      else if tag_author ≠ "" then { metadata with author := tag_author }
      else metadata
    | none =>
      if tag_author ≠ "" then { metadata with author := tag_author } else metadata

/-! ## ops/audit.py — normalisation helpers shared with the library diff -/

/-- Fuel-driven loop of `subAllCtx`. -/
def subAllCtxF (f : Option Char → List Char → Option (Nat × List Char)) :
    Nat → Option Char → List Char → List Char
  | 0, _, l => l
  | _ + 1, _, [] => []
  | fuel + 1, prev, c :: rest =>
    match f prev (c :: rest) with
    | some (k, rep) =>
      if 0 < k then
        rep ++ subAllCtxF f fuel (((c :: rest).take k).getLast?) ((c :: rest).drop k)
      else c :: subAllCtxF f fuel (some c) rest
    | none => c :: subAllCtxF f fuel (some c) rest

/-- Context-aware variant of `subAll` for patterns with a lookbehind: the
matcher also receives the character preceding the current position. -/
def subAllCtx (f : Option Char → List Char → Option (Nat × List Char))
    (prev : Option Char) (l : List Char) : List Char :=
  subAllCtxF f l.length prev l

/-- Anchored `re.sub(r"^edited\s+by\s+", "", s)`. -/
def stripEditedBy (s : List Char) : List Char :=
  if ("edited".toList).isPrefixOf s then
    let w := runLen pyIsSpace (s.drop 6)
    if 1 ≤ w && ("by".toList).isPrefixOf (s.drop (6 + w)) then
      let w2 := runLen pyIsSpace (s.drop (6 + w + 2))
      if 1 ≤ w2 then s.drop (6 + w + 2 + w2) else s
    else s
  else s

/-- Matcher for the literal replacement `" & "` → `" and "`. -/
def ampAndM (l : List Char) : Option (Nat × List Char) :=
  if [' ', '&', ' '].isPrefixOf l then some (3, " and ".toList) else none

/-- Matcher for `\b([a-z])\s+(?=[a-z]\b)` (single-letter collapse); replaces
the letter and whitespace by the letter alone, consuming no lookahead. -/
def singleLetterM (prev : Option Char) (l : List Char) : Option (Nat × List Char) :=
  match l with
  | c1 :: rest =>
    if ('a' ≤ c1 && c1 ≤ 'z') && (match prev with | none => true | some p => !isWordC p) then
      let w := runLen pyIsSpace rest
      if 1 ≤ w then
        match rest.drop w with
        | c2 :: tail =>
          if ('a' ≤ c2 && c2 ≤ 'z') &&
              (match tail.head? with | some x => !isWordC x | none => true) then
            some (1 + w, [c1])
          else none
        | [] => none
      else none
    else none
  | [] => none

/-- The `_normalize_author` helper of `ops/audit.py`. -/
def normalizeAuthorDiff (author : List Char) : List Char :=
  let s := pyLowerL (pyStripL author)
  let s := stripEditedBy s
  let s := subAll ampAndM s
  let s := s.filter (· ≠ '.')
  let s := subAllCtx singleLetterM none s
  pyStripL (collapseWS s)

/-- Anchored `re.sub(r"^(book\s+)?\d+\s*-\s*", "", s)`. -/
def stripBookNumDashPre (s : List Char) : List Char :=
  let tryCore := fun (t : List Char) =>
    let d := runLen isDigitC t
    if d = 0 then none
    else
      let a := t.drop d
      match a.drop (runLen pyIsSpace a) with
      | '-' :: r => some (r.drop (runLen pyIsSpace r))
      | _ => none
  let withBook :=
    if ("book".toList).isPrefixOf s then
      let w := runLen pyIsSpace (s.drop 4)
      if 1 ≤ w then tryCore (s.drop (4 + w)) else none
    else none
  match withBook with
  | some r => r
  | none => match tryCore s with | some r => r | none => s

/-- Matcher for `\[B0[A-Z0-9]+\]` (case-insensitive, removed). -/
def asinCodeM (l : List Char) : Option (Nat × List Char) :=
  match l with
  | '[' :: c1 :: '0' :: rest =>
    if c1 = 'B' || c1 = 'b' then
      let r := runLen (fun c => c.isAlpha || c.isDigit) rest
      if 1 ≤ r && (rest.drop r).head? = some ']' then some (3 + r + 1, []) else none
    else none
  | _ => none

/-- Matcher for the lazy `\[.*?\]` (removed). -/
def bracketLazyPlainM (l : List Char) : Option (Nat × List Char) :=
  match l with
  | '[' :: rest =>
    let b := runLen (fun c => c ≠ ']' && c ≠ '\n') rest
    if (rest.drop b).head? = some ']' then some (1 + b + 1, []) else none
  | _ => none

/-- Matcher for `\(\s*(?:un)?abridged\s*\)` (case-insensitive, removed). -/
def unabrFlexM (l : List Char) : Option (Nat × List Char) :=
  match l with
  | '(' :: rest =>
    let w1 := runLen pyIsSpace rest
    let t := rest.drop w1
    let low := pyLowerL t
    let afterOpt : Option Nat :=
      if ("un".toList).isPrefixOf low then
        if ("abridged".toList).isPrefixOf (low.drop 2) then some 10 else none
      else if ("abridged".toList).isPrefixOf low then some 8 else none
    match afterOpt with
    | some k =>
      let t2 := t.drop k
      let w2 := runLen pyIsSpace t2
      if (t2.drop w2).head? = some ')' then some (1 + w1 + k + w2 + 1, []) else none
    | none => none
  | _ => none

/-- Matcher for the lazy `\(.*?\)` (removed). -/
def parenLazyPlainM (l : List Char) : Option (Nat × List Char) :=
  match l with
  | '(' :: rest =>
    let b := runLen (fun c => c ≠ ')' && c ≠ '\n') rest
    if (rest.drop b).head? = some ')' then some (1 + b + 1, []) else none
  | _ => none

/-- Start of the anchored suffix `,?\s*part\s+\d+\s*$` (case-insensitive), if
it matches: everything from the start index is deleted. -/
def auditPartSuffixStart (s : List Char) : Option Nat :=
  let r := pyLowerL s.reverse
  let t1 := runLen pyIsSpace r
  let r1 := r.drop t1
  let d := runLen isDigitC r1
  if d = 0 then none
  else
    let r2 := r1.drop d
    let w := runLen pyIsSpace r2
    if w = 0 then none
    else
      let r3 := r2.drop w
      if ("trap".toList).isPrefixOf r3 then
        let r4 := r3.drop 4
        let w0 := runLen pyIsSpace r4
        let comma := if (r4.drop w0).head? = some ',' then 1 else 0
        some (s.length - (t1 + d + w + 4 + w0 + comma))
      else none

/-- Start of the anchored suffix `\s*-\s*book\s+\d+\s*$` (case-insensitive). -/
def dashBookNumSuffixStart (s : List Char) : Option Nat :=
  let r := pyLowerL s.reverse
  let t1 := runLen pyIsSpace r
  let r1 := r.drop t1
  let d := runLen isDigitC r1
  if d = 0 then none
  else
    let r2 := r1.drop d
    let w := runLen pyIsSpace r2
    if w = 0 then none
    else
      let r3 := r2.drop w
      if ("koob".toList).isPrefixOf r3 then
        let r4 := r3.drop 4
        let w2 := runLen pyIsSpace r4
        match r4.drop w2 with
        | '-' :: r5 => some (s.length - (t1 + d + w + 4 + w2 + 1 + runLen pyIsSpace r5))
        | _ => none
      else none

/-- Matcher (to end of string) for `\s*-\s*dragonlance[^-]*$`. -/
def dragonSuffixM (t : List Char) : Option Unit :=
  let w1 := runLen pyIsSpace t
  match t.drop w1 with
  | '-' :: r =>
    let w2 := runLen pyIsSpace r
    let low := pyLowerL (r.drop w2)
    if ("dragonlance".toList).isPrefixOf low && (low.drop 11).all (· ≠ '-') then some ()
    else none
  | _ => none

/-- Matcher (to end of string) for `\s*-?\s*,?\s*volume\s+\w+\s*$`. -/
def volumeSuffixM (t : List Char) : Option Unit :=
  let a1 := t.drop (runLen pyIsSpace t)
  let a2 := match a1 with | '-' :: r => r.drop (runLen pyIsSpace r) | _ => a1
  let a3 := match a2 with | ',' :: r => r.drop (runLen pyIsSpace r) | _ => a2
  let low := pyLowerL a3
  if ("volume".toList).isPrefixOf low then
    let r := low.drop 6
    let w := runLen pyIsSpace r
    if 1 ≤ w then
      let r2 := r.drop w
      let wr := runLen isWordC r2
      if 1 ≤ wr && (r2.drop wr).drop (runLen pyIsSpace (r2.drop wr)) = [] then some ()
      else none
    else none
  else none

/-- Matcher (to end of string) for `\s*-\s*the\s+\w+\s+saga.*$`. -/
def sagaSuffixM (t : List Char) : Option Unit :=
  let a1 := t.drop (runLen pyIsSpace t)
  match a1 with
  | '-' :: r =>
    let low := pyLowerL (r.drop (runLen pyIsSpace r))
    if ("the".toList).isPrefixOf low then
      let r2 := low.drop 3
      let w := runLen pyIsSpace r2
      if 1 ≤ w then
        let r3 := r2.drop w
        let wr := runLen isWordC r3
        if 1 ≤ wr then
          let r4 := r3.drop wr
          let w2 := runLen pyIsSpace r4
          if 1 ≤ w2 && ("saga".toList).isPrefixOf (r4.drop w2)
              && !(r4.drop (w2 + 4)).contains '\n' then
            some ()
          else none
        else none
      else none
    else none
  | _ => none

/-- Matcher (to end of string) for `_book\s+[\w]+\s*-.*$`. -/
def underscoreBookSuffixM (t : List Char) : Option Unit :=
  match t with
  | '_' :: r =>
    let low := pyLowerL r
    if ("book".toList).isPrefixOf low then
      let r2 := low.drop 4
      let w := runLen pyIsSpace r2
      if 1 ≤ w then
        let r3 := r2.drop w
        let wr := runLen isWordC r3
        if 1 ≤ wr then
          let r4 := r3.drop (wr + runLen pyIsSpace (r3.drop wr))
          match r4 with
          | '-' :: rest => if !rest.contains '\n' then some () else none
          | _ => none
        else none
      else none
    else none
  | _ => none

/-- Matcher (to end) for `\s*-\s*j\.?\s*r\.?\s*r\.?\s*tolkien.*$`. -/
def jrrTolkienSuffixM (t : List Char) : Option Unit :=
  let a1 := t.drop (runLen pyIsSpace t)
  match a1 with
  | '-' :: r =>
    let low := pyLowerL (r.drop (runLen pyIsSpace r))
    let eatInitial := fun (c : Char) (u : List Char) =>
      match u with
      | x :: rest =>
        if x = c then
          let rest2 := match rest with | '.' :: rr => rr | _ => rest
          some (rest2.drop (runLen pyIsSpace rest2))
        else none
      | [] => none
    match eatInitial 'j' low with
    | some u1 =>
      match eatInitial 'r' u1 with
      | some u2 =>
        match eatInitial 'r' u2 with
        | some u3 =>
          if ("tolkien".toList).isPrefixOf u3 && !(u3.drop 7).contains '\n' then some ()
          else none
        | none => none
      | none => none
    | none => none
  | _ => none

/-- Matcher (to end) for `\s*-\s*christopher\s+tolkien.*$`. -/
def christopherSuffixM (t : List Char) : Option Unit :=
  let a1 := t.drop (runLen pyIsSpace t)
  match a1 with
  | '-' :: r =>
    let low := pyLowerL (r.drop (runLen pyIsSpace r))
    if ("christopher".toList).isPrefixOf low then
      let r2 := low.drop 11
      let w := runLen pyIsSpace r2
      if 1 ≤ w && ("tolkien".toList).isPrefixOf (r2.drop w)
          && !(r2.drop (w + 7)).contains '\n' then
        some ()
      else none
    else none
  | _ => none

/-- Matcher (to end) for `\s+-\s+[a-z]\.\s*[a-z]\.\s*[a-z]+\s*$`. -/
def initialsAuthorSuffixM (t : List Char) : Option Unit :=
  let w1 := runLen pyIsSpace t
  if w1 = 0 then none
  else
    match t.drop w1 with
    | '-' :: r =>
      let w2 := runLen pyIsSpace r
      if w2 = 0 then none
      else
        let eat := fun (u : List Char) =>
          match u with
          | c :: '.' :: rest =>
            if 'a' ≤ c && c ≤ 'z' then some (rest.drop (runLen pyIsSpace rest)) else none
          | _ => none
        match eat (r.drop w2) with
        | some u1 =>
          match eat u1 with
          | some u2 =>
            let lr := runLen (fun c => 'a' ≤ c && c ≤ 'z') u2
            if 1 ≤ lr && (u2.drop lr).drop (runLen pyIsSpace (u2.drop lr)) = [] then some ()
            else none
          | none => none
        | none => none
    | _ => none

/-- Match an author name pattern built by
`re.escape(author).replace(r"\ ", r"\s*")`: spaces match any whitespace run
(including none), other characters literally. Returns the remainder. -/
def matchFlexName : List Char → List Char → Option (List Char)
  | [], t => some t
  | ' ' :: ps, t => matchFlexName ps (t.drop (runLen pyIsSpace t))
  | p :: ps, t =>
    match t with
    | c :: rest => if c = p then matchFlexName ps rest else none
    | [] => none

/-- Anchored `re.sub(rf"^{pat}\s*-\s*", "", s)` for a flexible author name. -/
def stripFlexAuthorPre (pat : List Char) (s : List Char) : List Char :=
  if pat = [] then s
  else
    match matchFlexName pat s with
    | some rest =>
      let a := rest.drop (runLen pyIsSpace rest)
      match a with
      | '-' :: r => r.drop (runLen pyIsSpace r)
      | _ => s
    | none => s

/-- Delete the leftmost `\s*-\s*{pat}.*$` suffix for a flexible author name. -/
def stripFlexAuthorSuffix (pat : List Char) (s : List Char) : List Char :=
  if pat = [] then s
  else
    let m := fun (t : List Char) =>
      let a1 := t.drop (runLen pyIsSpace t)
      match a1 with
      | '-' :: r =>
        match matchFlexName pat (r.drop (runLen pyIsSpace r)) with
        | some rest => if !rest.contains '\n' then some () else none
        | none => none
      | _ => none
    match findFirstIdx m s with
    | some (i, _) => s.take i
    | none => s

/-- Backtracking loop for `^[\w\s]+\d+_`: try the largest `[\w\s]+` prefix
length first. -/
def tryWordNumUnd (s : List Char) : Nat → Option (List Char)
  | 0 => none
  | k + 1 =>
    let t := s.drop (k + 1)
    let d := runLen isDigitC t
    if 1 ≤ d && (t.drop d).head? = some '_' then some (t.drop (d + 1))
    else tryWordNumUnd s k

/-- Anchored `re.sub(r"^[\w\s]+\d+_", "", s)`. -/
def stripWordNumUnderscore (s : List Char) : List Char :=
  let w := runLen (fun c => isWordC c || pyIsSpace c) s
  match tryWordNumUnd s w with
  | some r => r
  | none => s

/-- Matcher (with context) for `(?<=[a-z])-(?=[a-z])` → `" "`. -/
def wordHyphenM (prev : Option Char) (l : List Char) : Option (Nat × List Char) :=
  match l with
  | '-' :: c2 :: _ =>
    match prev with
    | some p =>
      if ('a' ≤ p && p ≤ 'z') && ('a' ≤ c2 && c2 ≤ 'z') then some (1, [' ']) else none
    | none => none
  | _ => none

/-- Anchored `re.sub(r"^dragonlance\s*[-:]?\s*", "", s)` (case-insensitive). -/
def stripDragonlancePre (s : List Char) : List Char :=
  if ("dragonlance".toList).isPrefixOf (pyLowerL s) then
    let a := s.drop 11
    let a1 := a.drop (runLen pyIsSpace a)
    match a1 with
    | c :: r => if c = '-' || c = ':' then r.drop (runLen pyIsSpace r) else a1
    | [] => []
  else s

/-- Delete-to-end helper for the suffix matchers above. -/
def cutAt (m : List Char → Option Unit) (s : List Char) : List Char :=
  match findFirstIdx m s with
  | some (i, _) => s.take i
  | none => s

/-- The `_normalize_for_dedup` helper of `ops/audit.py`. -/
def normalizeForDedup (stem : List Char) (author : List Char) : List Char :=
  let s := pyLowerL stem
  let s := stripBookNumDashPre s
  let s := subAll asinCodeM s
  let s := subAll bracketLazyPlainM s
  let s := subAll unabrFlexM s
  let s := subAll parenLazyPlainM s
  let s := match auditPartSuffixStart s with | some i => s.take i | none => s
  let s := match dashBookNumSuffixStart s with | some i => s.take i | none => s
  let s := cutAt dragonSuffixM s
  let s := cutAt volumeSuffixM s
  let s := cutAt sagaSuffixM s
  let s := cutAt underscoreBookSuffixM s
  let s := cutAt jrrTolkienSuffixM s
  let s := cutAt christopherSuffixM s
  let s := cutAt initialsAuthorSuffixM s
  let s :=
    if author ≠ [] then
      let authorLow := pyLowerL author
      let normAuth := normalizeAuthorDiff author
      let s := stripFlexAuthorPre authorLow s
      let s := stripFlexAuthorPre normAuth s
      let s := stripFlexAuthorSuffix authorLow s
      stripFlexAuthorSuffix normAuth s
    else s
  let s := stripWordNumUnderscore s
  let s := s.map (fun c => if c = '_' then ' ' else c)
  let s := subAllCtx wordHyphenM none s
  let s := s.filter (· ≠ ',')
  let s := stripDragonlancePre s
  pyStripL (collapseWS s)

/-! ## ops/library_diff.py -/

/-- Top-level folders that are containers, not author names. -/
def nonAuthorFolders : List String :=
  ["newbooks", "original", "incoming", "unsorted", "_unsorted", "to_fix",
   "audiobooks_to_fix", "downloads", "new"]

/-- A single book (or multi-part group) in a library. -/
structure BookEntry where
  author : String
  norm_author : String
  title : String
  norm_title : String
  path : String
  is_multipart : Bool
  part_group : String
deriving DecidableEq, Repr, Inhabited

/-- Test for `_CHAPTER_FILE_RE`: `^(?:ch)?\d{1,3}[a-d]?\s*[-\.]\s*`,
case-insensitive. -/
def chapterFileMatch (s : List Char) : Bool :=
  let low := pyLowerL s
  let core := fun (t : List Char) =>
    let tryK := fun (k : Nat) =>
      (t.take k).length = k && (t.take k).all isDigitC &&
        (let rest := t.drop k
         let checkTail := fun (u : List Char) =>
           match u.drop (runLen pyIsSpace u) with
           | c :: _ => c = '-' || c = '.'
           | [] => false
         (match rest with
          | c :: r2 => ('a' ≤ c && c ≤ 'd') && checkTail r2
          | [] => false)
         || checkTail rest)
    tryK 3 || tryK 2 || tryK 1
  (("ch".toList).isPrefixOf low && core (low.drop 2)) || core low

/-- Start of the anchored `_PART_SUFFIX_RE` suffix `[,\s]+part\s+\d+\s*$`
(case-insensitive), if it matches. -/
def partSuffixStart (s : List Char) : Option Nat :=
  let r := pyLowerL s.reverse
  let t1 := runLen pyIsSpace r
  let r1 := r.drop t1
  let d := runLen isDigitC r1
  if d = 0 then none
  else
    let r2 := r1.drop d
    let w := runLen pyIsSpace r2
    if w = 0 then none
    else
      let r3 := r2.drop w
      if ("trap".toList).isPrefixOf r3 then
        let cs := runLen (fun c => pyIsSpace c || c = ',') (r3.drop 4)
        if 1 ≤ cs then some (s.length - (t1 + d + w + 4 + cs)) else none
      else none

/-- Test for `_PART_SUFFIX_RE.search`. -/
def partSuffixSearch (s : List Char) : Bool := (partSuffixStart s).isSome

/-- The `_PART_SUFFIX_RE.sub("", stem)` used to build part-group keys. -/
def partSuffixSub (s : List Char) : List Char :=
  match partSuffixStart s with
  | some i => s.take i
  | none => s

/-- Test for `_NUMBERED_PREFIX_RE`: `^(?:\d+-\d+\s+|HP[\.\s]*\d+\s*[-\.]\s*)`,
case-insensitive. -/
def numberedPrefixMatch (s : List Char) : Bool :=
  let low := pyLowerL s
  let altA :=
    let d1 := runLen isDigitC low
    1 ≤ d1 &&
      (match low.drop d1 with
       | '-' :: r =>
         let d2 := runLen isDigitC r
         1 ≤ d2 && 1 ≤ runLen pyIsSpace (r.drop d2)
       | _ => false)
  let altB :=
    ("hp".toList).isPrefixOf low &&
      (let r := (low.drop 2).drop (runLen (fun c => c = '.' || pyIsSpace c) (low.drop 2))
       let d := runLen isDigitC r
       1 ≤ d &&
         (match (r.drop d).drop (runLen pyIsSpace (r.drop d)) with
          | c :: _ => c = '-' || c = '.'
          | [] => false))
  altA || altB

/-- The `_book_title_from_dir` helper:
strip a `^book\s+[\d.]+\s*-?\s*` prefix (case-insensitive) and trim. -/
def bookTitleFromDir (dir_name : List Char) : List Char :=
  let low := pyLowerL dir_name
  let stripped :=
    if ("book".toList).isPrefixOf low then
      let w := runLen pyIsSpace (dir_name.drop 4)
      if 1 ≤ w then
        let r := dir_name.drop (4 + w)
        let d := runLen (fun c => isDigitC c || c = '.') r
        if 1 ≤ d then
          let a := (r.drop d).drop (runLen pyIsSpace (r.drop d))
          match a with
          | '-' :: rest => rest.drop (runLen pyIsSpace rest)
          | _ => a
        else dir_name
      else dir_name
    else dir_name
  pyStripL stripped

/-- The `_guess_author_from_path` helper, on relative path components. -/
def guessAuthorFromPath (parts : List String) : String :=
  match parts.dropLast.find? (fun part =>
      let lowp := pyLowerL part.toList
      !(nonAuthorFolders.any (fun f => f.toList = lowp))
        && !(("audiobooks".toList).isPrefixOf lowp)
        && !(hasSub lowp ("audiobook".toList))) with
  | some p => p
  | none => if 2 ≤ parts.length then (parts.head?).getD "" else ""

/-- Join path components with `/` (Python `str(path)` for relative paths). -/
def renderPath (parts : List String) : String := String.intercalate "/" parts

/-- The `_extract_books` scan of `ops/library_diff.py`.  The `rglob("*.m4b")`
walk is modelled by its result: `files` is the sorted list of `.m4b` paths
relative to the library root (as component lists), and `root` is the root
path string used in the absolute part-group keys. -/
def extract_books (root : String) (files : List (List String)) : List BookEntry :=
  (files.filter (fun parts => 2 ≤ parts.length)).map (fun parts =>
    let author := guessAuthorFromPath parts
    let filename := (parts.reverse.head?).getD ""
    let stem := stemOf filename.toList
    let stemS := String.mk stem
    let is_part := partSuffixSearch stem
    let is_chapter := chapterFileMatch stem
    let is_numbered := numberedPrefixMatch stem
    let part_group :=
      if is_part then
        let base := pyStripL (partSuffixSub stem)
        root ++ "/" ++ renderPath parts.dropLast ++ "|" ++ String.mk (pyLowerL base)
      else if is_chapter || is_numbered then
        root ++ "/" ++ renderPath parts.dropLast
      else ""
    { author := author
      norm_author := String.mk (normalizeAuthorDiff author.toList)
      title := stemS
      norm_title := String.mk (normalizeForDedup (pyLowerL stem) author.toList)
      path := renderPath parts
      is_multipart := is_part || is_chapter || is_numbered
      part_group := part_group })

/-- The `_collapse_multipart` function of `ops/library_diff.py`: group
multi-part entries by `part_group` (insertion order, as a Python dict) and
emit one representative per group after the standalone entries. -/
def collapse_multipart (entries : List BookEntry) : List BookEntry :=
  let split :=
    entries.foldl
      (fun (acc : List (String × List BookEntry) × List BookEntry) e =>
        if e.is_multipart && e.part_group ≠ "" then
          let gs := acc.1
          if gs.any (fun g => g.1 = e.part_group) then
            (gs.map (fun g => if g.1 = e.part_group then (g.1, g.2 ++ [e]) else g), acc.2)
          else (gs ++ [(e.part_group, [e])], acc.2)
        else (acc.1, acc.2 ++ [e]))
      ([], [])
  split.2 ++ split.1.map (fun g =>
    let rep := (g.2.head?).getD default
    let titledata :=
      if chapterFileMatch rep.title.toList || numberedPrefixMatch rep.title.toList then
        let dir_name := parentNameOf rep.path.toList
        let t := bookTitleFromDir dir_name
        (String.mk t, String.mk (normalizeForDedup (pyLowerL t) rep.author.toList))
      else (rep.title, rep.norm_title)
    { author := rep.author
      norm_author := rep.norm_author
      title := titledata.1
      norm_title := titledata.2
      path := rep.path
      is_multipart := true
      part_group := g.1 })

/-! ## Auxiliary definitions for the statements below -/

/-- A filesystem snapshot with no directories (fresh library). -/
def emptyFS : FS :=
  { isDir := fun _ => false
    pathExists := fun _ => false
    listing := fun _ => [] }

/-- The Pattern-D basename cleanup chain of `parse_path` as it runs when no
author and no series were extracted (the prefix-strip guards are skipped). -/
def patternDClean (b : List Char) : List Char :=
  let t := subAll bracketNumM b
  let t := match fullBracketTitle (pyStripL t) with | some mid => mid | none => t
  let t := stripLeadingNum t
  pyStripL (collapseWS t)

/-- The cleaned basename produced by the no-pattern fallback of `parse_path`:
Pattern-D cleanup followed by the always-applied junk cleanup. -/
def cleanedBasename (b : List Char) : List Char := cleanTitleJunk (patternDClean b)

/-- Spec-side definition (the wording of the fuzzy-scoring spec): the expected score of the
candidate at original rank `idx`:
`titleSimilarity*0.6 + authorSimilarity*0.3 + max(10 - 2*idx, 0)`, with the
author similarity the maximum partial ratio over the candidate's authors,
contributing `0` when the author hint is empty, rounded to one decimal. -/
def specScore (tokenSortSim partialSim : String → String → ℚ)
    (title_hint author_hint : String) (idx : Nat) (r : Candidate) : ℚ :=
  round1 (tokenSortSim (pyLowerS title_hint) (pyLowerS r.title) * (6 / 10)
    + (if author_hint = "" then 0
       else pyMaxD (r.authors.map (fun a => partialSim (pyLowerS author_hint) (pyLowerS a))) 0
         * (3 / 10))
    + max (10 - 2 * (idx : ℚ)) 0)

/-- Spec-side definition (the wording of the fuzzy-scoring spec): every candidate annotated with
its expected score, in original search-result order. -/
def specScored (tokenSortSim partialSim : String → String → ℚ)
    (results : List Candidate) (title_hint author_hint : String) :
    List ScoredCandidate :=
  results.enum.map (fun p =>
    { cand := p.2, score := specScore tokenSortSim partialSim title_hint author_hint p.1 p.2 })

/-! # Theorems -/

/-- C6: `parse_path` on the Pattern-A scenario path
`/media/Brandon Sanderson-Mistborn-#1-The Final Empire/audio.m4b` returns
exactly author `Brandon Sanderson`, series `Mistborn`, position `1`, title
`The Final Empire`. -/
theorem C6_pattern_a_scenario :
    parse_path "/media/Brandon Sanderson-Mistborn-#1-The Final Empire/audio.m4b" =
      { author := "Brandon Sanderson", title := "The Final Empire",
        series := "Mistborn", position := "1" } := by
  rfl

/-- C1 counterexample: on the Pattern-A path
`/media/Mistborn-Mistborn-#1-The Final Empire/x.m4b` the parser returns
author and series both non-empty and equal case-insensitively, because the
Pattern-A branch returns before the dedup step runs. -/
theorem C1_counterexample :
    (parse_path "/media/Mistborn-Mistborn-#1-The Final Empire/x.m4b" =
      { author := "Mistborn", title := "The Final Empire",
        series := "Mistborn", position := "1" })
    ∧ (parse_path "/media/Mistborn-Mistborn-#1-The Final Empire/x.m4b").author ≠ ""
    ∧ (parse_path "/media/Mistborn-Mistborn-#1-The Final Empire/x.m4b").series ≠ ""
    ∧ pyLowerS (parse_path "/media/Mistborn-Mistborn-#1-The Final Empire/x.m4b").author
      = pyLowerS (parse_path "/media/Mistborn-Mistborn-#1-The Final Empire/x.m4b").series := by
  refine ⟨by rfl, by decide, by decide, by rfl⟩

/-- C1 amended: the dedup step itself establishes the invariant at the point
it is applied: after `dedupAuthorSeries` the author and series are never both
non-empty and equal case-insensitively.  (Results returned early by the
Pattern-A branch, and series extracted from the title after the dedup step,
are not covered by it — see the counterexample.) -/
theorem C1_amended_dedup_invariant (author series : List Char) :
    ¬ (dedupAuthorSeries author series ≠ [] ∧ series ≠ []
        ∧ pyLowerL (dedupAuthorSeries author series) = pyLowerL series) := by
  rintro ⟨h1, h2, h3⟩
  by_cases he : pyLowerL author = pyLowerL series
  · by_cases ha : author = []
    · simp [dedupAuthorSeries, ha] at h1
    · simp [dedupAuthorSeries, ha, h2, he] at h1
  · simp only [dedupAuthorSeries] at h3
    by_cases hcond : author ≠ [] && series ≠ [] && decide (pyLowerL author = pyLowerL series)
    · simp only [Bool.and_eq_true, decide_eq_true_eq] at hcond
      exact he hcond.2
    · rw [if_neg hcond] at h3
      exact he h3

/-- C2 counterexample: the three files `Book, Part 1.m4b`, `Part 2.m4b`,
`Part 3.m4b` in one directory do NOT collapse to a single entry: only the
first carries the `", Part N"` suffix required by `_PART_SUFFIX_RE`, so the
scan-and-collapse yields three entries. -/
theorem C2_counterexample :
    (collapse_multipart (extract_books "/lib"
      [["Author Name", "Book, Part 1.m4b"],
       ["Author Name", "Part 2.m4b"],
       ["Author Name", "Part 3.m4b"]])).length = 3
    ∧ (collapse_multipart (extract_books "/lib"
      [["Author Name", "Book, Part 1.m4b"],
       ["Author Name", "Part 2.m4b"],
       ["Author Name", "Part 3.m4b"]])).length ≠ 1 := by
  refine ⟨by decide, by decide⟩

/-- C2 amended: three files that each carry the `", Part N"` suffix
(`Book, Part 1.m4b`, `Book, Part 2.m4b`, `Book, Part 3.m4b`) in one directory
collapse to exactly one `BookEntry` representing that book. -/
theorem C2_amended_collapse :
    collapse_multipart (extract_books "/lib"
      [["Author Name", "Book, Part 1.m4b"],
       ["Author Name", "Book, Part 2.m4b"],
       ["Author Name", "Book, Part 3.m4b"]]) =
      [{ author := "Author Name"
         norm_author := "author name"
         title := "Book, Part 1"
         norm_title := "book"
         path := "Author Name/Book, Part 1.m4b"
         is_multipart := true
         part_group := "/lib/Author Name|book" }] := by
  rfl

/-- C3 counterexample: a response whose author line carries the value `NONE`
is not treated as absent — the parser keeps the literal string `NONE` as the
author and returns a result instead of `None` (only `UNKNOWN` and the empty
value are filtered for the AUTHOR and TITLE fields). -/
theorem C3_counterexample :
    parse_resolve_response "AUTHOR: NONE" =
      some { author := some "NONE", title := none, series := none, position := none }
    ∧ parse_resolve_response "AUTHOR: NONE" ≠ none
    ∧ pyUpperS "NONE" ∈ ["NONE", "UNKNOWN", "N/A", ""] := by
  refine ⟨by rfl, by decide, by decide⟩

/-- C8 counterexample: the alias round trip fails for an empty variant name:
after `_save_alias("", c)` the call `match_author("")` returns `""` (the
guard `if not desired` short-circuits before the alias lookup), not `c`. -/
theorem C8_counterexample :
    ((LibraryIndex.empty.save_alias "" "A B").match_author "").1 = ""
    ∧ ("" : String) ≠ "A B" := by
  refine ⟨by rfl, by decide⟩

/-- C8 amended: for any NON-EMPTY author-name strings `v` and `c` with
`v ≠ c`, and any starting index state, `_save_alias(v, c)` followed by
`match_author(v)` returns `c`: the saved alias is hit by the first lookup. -/
theorem C8_amended_alias_roundtrip (idx : LibraryIndex) (v c : String)
    (hv : v ≠ "") (hc : c ≠ "") (hvc : v ≠ c) :
    ((idx.save_alias v c).match_author v).1 = c := by
  have hsave : (idx.save_alias v c).authorAliases v = some c := by
    unfold LibraryIndex.save_alias
    simp [hvc]
  unfold LibraryIndex.match_author
  simp [hv, hsave, hc]

/-- C8 witness: a concrete round trip through the alias table. -/
theorem C8_witness :
    ((LibraryIndex.empty.save_alias "R.A. Salvatore" "R. A. Salvatore").match_author
      "R.A. Salvatore").1 = "R. A. Salvatore" :=
  C8_amended_alias_roundtrip LibraryIndex.empty "R.A. Salvatore" "R. A. Salvatore"
    (by decide) (by decide) (by decide)

/-- Helper: a `Nodup` list with two distinct members has length at least 2. -/
theorem two_mem_two_le {α : Type} {l : List α} {a b : α}
    (ha : a ∈ l) (hb : b ∈ l) (hab : a ≠ b) : 2 ≤ l.length := by
  cases l with
  | nil => exact absurd ha (List.not_mem_nil a)
  | cons x xs =>
    cases xs with
    | nil =>
      simp only [List.mem_singleton] at ha hb
      exact absurd (ha.trans hb.symm) hab
    | cons y ys => simp [List.length_cons]

/-- Helper: the author field after one fold step of the response parser is
the extracted author value of the line when present, otherwise unchanged. -/
theorem parseRespFold_author (acc : AIMeta) (l : List Char) :
    (parseRespFold acc l).author =
      (match authorVal (pyStripL l) with
       | some v => some (String.mk v)
       | none => acc.author) := by
  unfold parseRespFold
  by_cases hp : ("AUTHOR:".toList).isPrefixOf (pyUpperL (pyStripL l))
  · rw [if_pos hp]
    rcases hv : authorVal (pyStripL l) with _ | v <;> rfl
  · have hA : authorVal (pyStripL l) = none := by
      unfold authorVal
      rw [if_neg hp]
    rw [if_neg hp, hA]
    by_cases h1 : ("TITLE:".toList).isPrefixOf (pyUpperL (pyStripL l))
    · rw [if_pos h1]
      rcases hv : titleVal (pyStripL l) with _ | v <;> rfl
    · rw [if_neg h1]
      by_cases h2 : ("SERIES:".toList).isPrefixOf (pyUpperL (pyStripL l))
      · rw [if_pos h2]
        rcases hv : seriesVal (pyStripL l) with _ | v <;> rfl
      · rw [if_neg h2]
        by_cases h3 : ("POSITION:".toList).isPrefixOf (pyUpperL (pyStripL l))
        · rw [if_pos h3]
          rcases hv : positionVal (pyStripL l) with _ | v <;> rfl
        · rw [if_neg h3]

/-- Helper: the fold over all lines leaves the author absent exactly when no
line carries a surviving author value and the accumulator had none. -/
theorem parseRespFold_author_none (lines : List (List Char)) (acc : AIMeta) :
    ((lines.foldl parseRespFold acc).author = none) ↔
      (acc.author = none ∧ lines.all (fun l => (authorVal (pyStripL l)).isNone)) := by
  induction lines generalizing acc with
  | nil => simp
  | cons l ls ih =>
    simp only [List.foldl_cons, List.all_cons, ih, parseRespFold_author]
    cases hv : authorVal (pyStripL l) with
    | none => simp [hv]
    | some v => simp [hv]

/-- C3 amended: `_parse_resolve_response` parses the field lines
case-insensitively, strips surrounding quotes, and treats `NONE`, `UNKNOWN`,
`N/A` and empty as absent for the SERIES and POSITION fields but only
`UNKNOWN` and empty for the AUTHOR and TITLE fields; it returns `None`
exactly when no author value is present after this filtering. -/
theorem C3_amended_none_iff (content : String) :
    parse_resolve_response content = none ↔
      (pySplitlines content.toList).all (fun l => (authorVal (pyStripL l)).isNone) := by
  have hmain : parse_resolve_response content = none ↔
      ((pySplitlines content.toList).foldl parseRespFold
        ⟨none, none, none, none⟩).author = none := by
    simp only [parse_resolve_response]
    rcases hA : ((pySplitlines content.toList).foldl parseRespFold
        ⟨none, none, none, none⟩).author with _ | a
    · simp
    · simp
  rw [hmain, parseRespFold_author_none]
  simp

/-- C4: when the path-derived and tag-derived authors are two distinct
non-placeholder values and AI contributes nothing (`resolve` returned
`None`, as it does when no client is configured), the resolver sets the
final author to the catalog author when a catalog result with non-empty
author exists, otherwise to the embedded-tag author (non-empty here);
and `needs_resolution` reports the two-author conflict. -/
theorem C4_conflict_fallback (metadata : ParsedMetadata) (tag : TagMeta)
    (audible : Option AudibleRes) (ai_all : Bool)
    (hpa : pyLowerL (pyStripL metadata.author.toList) ≠ [])
    (hta : pyLowerL (pyStripL tag.author.toList) ≠ [])
    (hpp : ¬ placeholderAuthors.contains (pyLowerL (pyStripL metadata.author.toList)))
    (htp : ¬ placeholderAuthors.contains (pyLowerL (pyStripL tag.author.toList)))
    (hne : pyLowerL (pyStripL metadata.author.toList) ≠ pyLowerL (pyStripL tag.author.toList)) :
    needs_resolution metadata tag audible = true
    ∧ (∀ r, audible = some r → r.author ≠ "" →
        (asin_resolution_step metadata tag audible none ai_all).author = r.author)
    ∧ (∀ r, audible = some r → r.author = "" →
        (asin_resolution_step metadata tag audible none ai_all).author = tag.author)
    ∧ (audible = none →
        (asin_resolution_step metadata tag audible none ai_all).author = tag.author) := by
  have htag : tag.author ≠ "" := by
    intro h
    apply hta
    rw [h]
    rfl
  have hneeds : needs_resolution metadata tag audible = true := by
    unfold needs_resolution
    simp only [List.map_cons, List.map_nil]
    have hmem : ∀ x : List Char, x ≠ [] → ¬ placeholderAuthors.contains x →
        x ∈ [pyLowerL (pyStripL metadata.author.toList),
             pyLowerL (pyStripL tag.author.toList),
             pyLowerL (pyStripL
               (match audible with | some r => r.author | none => "").toList)] →
        x ∈ (([pyLowerL (pyStripL metadata.author.toList),
              pyLowerL (pyStripL tag.author.toList),
              pyLowerL (pyStripL
                (match audible with | some r => r.author | none => "").toList)].filter
          (fun c => c ≠ [] && !placeholderAuthors.contains c)).dedup) := by
      intro x hx hpx hmemx
      rw [List.mem_dedup, List.mem_filter]
      refine ⟨hmemx, ?_⟩
      simp only [Bool.and_eq_true, decide_eq_true_eq, Bool.not_eq_true', ne_eq]
      refine ⟨by simpa using hx, ?_⟩
      rw [← Bool.not_eq_true]
      exact hpx
    have h1 := hmem _ hpa hpp (by simp)
    have h2 := hmem _ hta htp (by simp)
    have hlen := two_mem_two_le h1 h2 hne
    rw [if_pos (by omega)]
  refine ⟨hneeds, ?_, ?_, ?_⟩
  · intro r hr hauth
    subst hr
    unfold asin_resolution_step
    simp [hneeds, hauth]
  · intro r hr hauth
    subst hr
    unfold asin_resolution_step
    simp [hneeds, hauth, htag]
  · intro hr
    subst hr
    unfold asin_resolution_step
    simp [hneeds, htag]

/-- C4 witness: the conflict-escalation scenario with path author
`Stephen King`, tag author `Dean Koontz`, no catalog result and no AI. -/
theorem C4_witness :
    needs_resolution ⟨"Stephen King", "T", "", ""⟩ ⟨"Dean Koontz", "", ""⟩ none = true
    ∧ (asin_resolution_step ⟨"Stephen King", "T", "", ""⟩ ⟨"Dean Koontz", "", ""⟩
        none none false).author = "Dean Koontz" := by
  have h := C4_conflict_fallback ⟨"Stephen King", "T", "", ""⟩ ⟨"Dean Koontz", "", ""⟩
    none false (by decide) (by decide) (by decide) (by decide) (by decide)
  exact ⟨h.1, h.2.2.2 rfl⟩

/-- C5 counterexample: the assigned score is the weighted formula ROUNDED to
one decimal, not the exact formula: a constant title similarity of 55.55
yields the stored score 43.3 while the claim's formula gives 43.33. -/
theorem C5_counterexample :
    score_results (fun _ _ => (1111 : ℚ) / 20) (fun _ _ => 0)
      [{ asin := "a1", title := "t1", authors := [] }] "x" "" =
      [{ cand := { asin := "a1", title := "t1", authors := [] }, score := (433 : ℚ) / 10 }]
    ∧ ((433 : ℚ) / 10 ≠
        (1111 : ℚ) / 20 * (6 / 10) + 0 + max (10 - 2 * (0 : ℚ)) 0) := by
  constructor
  · unfold score_results
    simp only [List.enum, List.enumFrom, List.map_cons, List.map_nil,
      List.mergeSort_singleton]
    norm_num [round1, roundHalfEven]
  · norm_num

/-- C5 amended: `score_results` assigns the candidate at original rank `idx`
the score `round1(titleSim*0.6 + authorSim*0.3 + max(10-2*idx, 0))` — the
claim's formula rounded to one decimal place — and returns the candidates
sorted descending by this score with ties kept in original order: the result
equals the stable sort of the spec-scored list under the index-tie-breaking
order `enumLE`. -/
theorem C5_amended_score_sort (ts pr : String → String → ℚ)
    (results : List Candidate) (th ah : String) :
    score_results ts pr results th ah =
      (List.mergeSort ((specScored ts pr results th ah).enum)
        (List.enumLE (fun a b => decide (b.score ≤ a.score)))).map (·.2)
    ∧ List.Pairwise (fun a b => b.score ≤ a.score) (score_results ts pr results th ah) := by
  have key : score_results ts pr results th ah =
      (specScored ts pr results th ah).mergeSort (fun a b => decide (b.score ≤ a.score)) := by
    simp only [score_results, specScored, specScore]
    congr 1
    apply List.map_congr_left
    intro p _
    by_cases hA : ah = ""
    · simp only [hA]
      norm_num
      ring_nf
    · simp only [hA]
      norm_num [hA]
      ring_nf
  have htrans : ∀ a b c : ScoredCandidate,
      decide (b.score ≤ a.score) → decide (c.score ≤ b.score) → decide (c.score ≤ a.score) := by
    intro a b c h1 h2
    simp only [decide_eq_true_eq] at *
    exact le_trans h2 h1
  have htotal : ∀ a b : ScoredCandidate,
      decide (b.score ≤ a.score) || decide (a.score ≤ b.score) := by
    intro a b
    rcases le_total a.score b.score with h | h <;> simp [h]
  constructor
  · rw [key, List.mergeSort_enum]
  · rw [key]
    have hs := List.sorted_mergeSort htrans htotal (specScored ts pr results th ah)
    exact hs.imp (by simp)

/-- C7 counterexample: with series equal to the title (case-insensitively)
and a non-year position, the series level is dropped and the title folder is
NOT prefixed with `Book {position} - `, contradicting the claimed shape. -/
theorem C7_counterexample :
    (build_plex_path emptyFS ["root"]
      { author := "Ann B", title := "X Y", series := "X Y", position := "2" } none).1
      = ["root", "Ann B", "X Y"]
    ∧ (["root", "Ann B", "X Y"] : List String) ≠ ["root", "Ann B", "Book 2 - X Y"] := by
  refine ⟨by rfl, by decide⟩

/-- C10 counterexample: with a non-empty series EQUAL to the title and a
4-digit position, the series level is dropped and the position IS appended
as a trailing year subfolder, so it does influence the path. -/
theorem C10_counterexample :
    (build_plex_path emptyFS ["root"]
      { author := "Ann B", title := "Good Omens", series := "Good Omens",
        position := "2019" } none).1
      = ["root", "Ann B", "Good Omens", "2019"]
    ∧ (build_plex_path emptyFS ["root"]
        { author := "Ann B", title := "Good Omens", series := "Good Omens",
          position := "2019" } none).1
      ≠ (build_plex_path emptyFS ["root"]
          { author := "Ann B", title := "Good Omens", series := "Good Omens",
            position := "" } none).1 := by
  refine ⟨by rfl, by decide⟩

/-- Helper: whatever branch of the `_build` block of `build_plex_path` is
taken, the result is the output root followed by the author folder, or by
`_unsorted` when the author is empty. -/
theorem bppResult_head (reuse : List String → String → String) (nfs : List String)
    (a sn t tf : String) (hb : Bool) :
    ((bppResult reuse nfs a sn t tf hb).drop nfs.length).head? =
      some (if a ≠ "" then a else "_unsorted") := by
  unfold bppResult
  by_cases ha : a = "" <;> by_cases hsn : sn = "" <;>
    simp [ha, hsn, List.append_assoc, List.drop_left]

/-- Helper: the `_build` block's result always extends the output root. -/
theorem bppResult_len (reuse : List String → String → String) (nfs : List String)
    (a sn t tf : String) (hb : Bool) :
    nfs.length ≤ (bppResult reuse nfs a sn t tf hb).length := by
  unfold bppResult
  by_cases ha : a = "" <;> by_cases hsn : sn = "" <;>
    simp [ha, hsn]

/-- Helper: with a non-empty series and the book-number flag set, the branch
block ends in exactly the prefixed title folder (no near-match reuse). -/
theorem bppResult_last_of_bookNum (reuse : List String → String → String)
    (nfs : List String) (a sn t tf : String) (hsn : sn ≠ "") :
    (bppResult reuse nfs a sn t tf true).getLast? = some tf := by
  unfold bppResult
  by_cases ha : a = "" <;> simp [ha, hsn, List.getLast?_concat]

/-- Helper: the assembled path starts, after the output root, with the author
folder or `_unsorted`. -/
theorem bppAssemble_head (fs : FS) (i1 : Option LibraryIndex) (nfs : List String)
    (a title series0 pos : String) :
    ((bppAssemble fs i1 nfs a title series0 pos).drop nfs.length).head? =
      some (if a ≠ "" then a else "_unsorted") := by
  simp only [bppAssemble]
  have key : ∀ (c : Bool) (r : List String),
      nfs.length ≤ r.length →
      (r.drop nfs.length).head? = some (if a ≠ "" then a else "_unsorted") →
      ((if c = true then r ++ [pos] else r).drop nfs.length).head? =
        some (if a ≠ "" then a else "_unsorted") := by
    intro c r hlen hhead
    cases c
    · simpa using hhead
    · rw [if_pos rfl, List.drop_append_of_le_length hlen, List.head?_append, hhead]
      rfl
  exact key _ _ (bppResult_len _ _ _ _ _ _ _) (bppResult_head _ _ _ _ _ _ _)

/-- Helper: with a series distinct (case-insensitively) from the title and a
non-empty non-year position, the assembled path ends in the prefixed title
folder `Book pos - title`. -/
theorem bppAssemble_last_of_bookNum (fs : FS) (i1 : Option LibraryIndex)
    (nfs : List String) (a title series0 pos : String) (hsn : series0 ≠ "")
    (hlow : ¬ pyLowerL series0.toList = pyLowerL title.toList)
    (hpos : pos ≠ "") (hyear : yearFour pos = false) :
    (bppAssemble fs i1 nfs a title series0 pos).getLast? =
      some ("Book " ++ pos ++ " - " ++ title) := by
  have hlow' : ¬ pyLowerL series0.data = pyLowerL title.data := hlow
  simp [bppAssemble, hsn, hlow, hlow', hpos, hyear]
  exact bppResult_last_of_bookNum _ _ _ _ _ _ hsn

/-- Helper: with no series and a 4-digit position, the assembled path gets the
position appended as a trailing year folder. -/
theorem bppAssemble_last_of_year (fs : FS) (i1 : Option LibraryIndex)
    (nfs : List String) (a title pos : String) (hyear : yearFour pos = true) :
    (bppAssemble fs i1 nfs a title "" pos).getLast? = some pos := by
  have hpos : pos ≠ "" := by
    intro h
    subst h
    simp [yearFour] at hyear
  simp [bppAssemble, hpos, hyear, List.getLast?_concat]

/-- Helper: with a series distinct (case-insensitively) from the title, a
4-digit position is ignored by the assembly stage: the result is the same as
with an empty position. -/
theorem bppAssemble_year_drop (fs : FS) (i1 : Option LibraryIndex)
    (nfs : List String) (a title series0 pos : String) (hsn : series0 ≠ "")
    (hlow : ¬ pyLowerL series0.toList = pyLowerL title.toList)
    (hyear : yearFour pos = true) :
    bppAssemble fs i1 nfs a title series0 pos =
      bppAssemble fs i1 nfs a title series0 "" := by
  have hlow' : ¬ pyLowerL series0.data = pyLowerL title.data := hlow
  simp [bppAssemble, hsn, hlow, hlow', hyear]

/-- Helper: the path component of `build_plex_path` is the assembly stage
applied to the canonicalised author and the sanitised fields. -/
theorem build_fst_eq (fs : FS) (root : List String) (meta : ParsedMetadata)
    (index : Option LibraryIndex) :
    (build_plex_path fs root meta index).1 =
      bppAssemble fs
        (bppAuthorIndex index
          (if meta.author ≠ "" then sanitizeFilenameS meta.author else "")).2
        root
        (bppAuthorIndex index
          (if meta.author ≠ "" then sanitizeFilenameS meta.author else "")).1
        (if meta.title ≠ "" then sanitizeFilenameS meta.title else "Unknown")
        (if meta.series ≠ "" then sanitizeFilenameS meta.series else "")
        meta.position := by
  simp only [build_plex_path]

/-- Helper: canonicalising an empty author leaves it empty. -/
theorem bppAuthorIndex_empty (index : Option LibraryIndex) :
    (bppAuthorIndex index "").1 = "" := by
  cases index <;> simp [bppAuthorIndex]

/-- C7 amended: `build_plex_path` produces a directory of the shape
`root/Author/[Series/]["Book N - "]Title[/Year]`, where
(a) the top-level folder under the root is `_unsorted` when the author is
empty;
(b) when the series is present, sanitizes to a non-empty name DIFFERENT
case-insensitively from the sanitized title (otherwise the series level is
dropped, see the counterexample), and a non-empty non-4-digit position is
present, the final path component is the title folder prefixed with
`Book {position} - `;
(c) a position that is exactly a 4-digit number with no series is appended as
a trailing year subfolder. -/
theorem C7_amended_path_shape (fs : FS) (index : Option LibraryIndex)
    (root : List String) (meta : ParsedMetadata) :
    (meta.author = "" →
      (((build_plex_path fs root meta index).1).drop root.length).head? =
        some "_unsorted")
    ∧ (meta.series ≠ "" → sanitizeFilenameS meta.series ≠ "" →
        pyLowerS (sanitizeFilenameS meta.series) ≠
          pyLowerS (if meta.title ≠ "" then sanitizeFilenameS meta.title
            else "Unknown") →
        meta.position ≠ "" → yearFour meta.position = false →
        ((build_plex_path fs root meta index).1).getLast? =
          some ("Book " ++ meta.position ++ " - " ++
            (if meta.title ≠ "" then sanitizeFilenameS meta.title else "Unknown")))
    ∧ (meta.series = "" → yearFour meta.position = true →
        ((build_plex_path fs root meta index).1).getLast? = some meta.position) := by
  refine ⟨?_, ?_, ?_⟩
  · intro ha
    rw [build_fst_eq]
    have ha0 : (if meta.author ≠ "" then sanitizeFilenameS meta.author else "") = "" := by
      simp [ha]
    rw [ha0, bppAssemble_head, bppAuthorIndex_empty]
    decide
  · intro hs hsan hlow hpos hyear
    rw [build_fst_eq]
    have hser0 : (if meta.series ≠ "" then sanitizeFilenameS meta.series else "") =
        sanitizeFilenameS meta.series := by
      simp [hs]
    rw [hser0]
    have hlow' : ¬ pyLowerL (sanitizeFilenameS meta.series).toList =
        pyLowerL (if meta.title ≠ "" then sanitizeFilenameS meta.title
          else "Unknown").toList := by
      intro heq
      apply hlow
      simp only [pyLowerS, String.toList] at heq ⊢
      rw [heq]
    exact bppAssemble_last_of_bookNum _ _ _ _ _ _ _ hsan hlow' hpos hyear
  · intro hs hyear
    rw [build_fst_eq]
    have hser0 : (if meta.series ≠ "" then sanitizeFilenameS meta.series else "") =
        ("" : String) := by
      simp [hs]
    rw [hser0]
    exact bppAssemble_last_of_year _ _ _ _ _ _ hyear

/-- C7 witness: for metadata with author `A B`, title `T`, series `S` and
position `3`, the built path ends in the folder `Book 3 - T`. -/
theorem C7_witness :
    (build_plex_path emptyFS ["root"]
      { author := "A B", title := "T", series := "S", position := "3" } none).1.getLast?
      = some "Book 3 - T" := by
  have h := (C7_amended_path_shape emptyFS none ["root"]
      { author := "A B", title := "T", series := "S", position := "3" }).2.1
    (by decide) (by decide) (by decide) (by decide) (by decide)
  rw [h]
  rfl

/-- C10 amended: when the series is present, sanitizes to a non-empty name
different case-insensitively from the (sanitized) title — so that the
series level actually survives assembly — and the position is exactly a
4-digit number, `build_plex_path` neither prefixes the title folder with
`Book {position} - ` nor appends a trailing position subfolder: the built
path equals the one built with the position field blanked out. -/
theorem C10_amended_year_position_dropped (fs : FS) (index : Option LibraryIndex)
    (root : List String) (meta : ParsedMetadata)
    (hs : meta.series ≠ "") (hsan : sanitizeFilenameS meta.series ≠ "")
    (hlow : pyLowerS (sanitizeFilenameS meta.series) ≠
      pyLowerS (if meta.title ≠ "" then sanitizeFilenameS meta.title else "Unknown"))
    (hyear : yearFour meta.position = true) :
    (build_plex_path fs root meta index).1 =
      (build_plex_path fs root
        { author := meta.author, title := meta.title, series := meta.series,
          position := "" } index).1 := by
  rw [build_fst_eq, build_fst_eq]
  have hser0 : (if meta.series ≠ "" then sanitizeFilenameS meta.series else "") =
      sanitizeFilenameS meta.series := by
    simp [hs]
  have hlow' : ¬ pyLowerL (sanitizeFilenameS meta.series).toList =
      pyLowerL (if meta.title ≠ "" then sanitizeFilenameS meta.title
        else "Unknown").toList := by
    intro heq
    apply hlow
    simp only [pyLowerS, String.toList] at heq ⊢
    rw [heq]
  simp only [hser0]
  exact bppAssemble_year_drop _ _ _ _ _ _ _ hsan hlow' hyear

/-- C10 witness: with author `A B`, title `T`, series `S` the built path for
position `2019` coincides with the path built with an empty position. -/
theorem C10_witness :
    (build_plex_path emptyFS ["root"]
      { author := "A B", title := "T", series := "S", position := "2019" } none).1 =
    (build_plex_path emptyFS ["root"]
      { author := "A B", title := "T", series := "S", position := "" } none).1 := by
  exact C10_amended_year_position_dropped emptyFS none ["root"]
    { author := "A B", title := "T", series := "S", position := "2019" }
    (by decide) (by decide) (by decide) (by decide)

/-- Helper: when no Pattern-A marker is found, `parse_path` runs the
fallback chain on the computed basename, ancestor names and parse target. -/
theorem parse_path_impl_noA (p : List Char) (sd : Option (List String))
    (hA : iterMarkers (parseTargetOf p) 0 = []) :
    parse_path_impl p sd =
      parsePathFallback (basenameOf p) (stripHash (parentNameOf p))
        (stripHash (gpNameOf p)) (stripHash (ggpNameOf p)) (parseTargetOf p) sd := by
  simp only [parse_path_impl]
  split
  · rename_i m0 ms hm
    rw [hA] at hm
    simp at hm
  · rfl

/-- Helper: a non-generic basename is left untouched by Pattern F. -/
theorem basenameOf_of_not_generic (p : List Char)
    (hgen : genericBasenames.contains
      (pyLowerL (stripHash (stemOf (pathName p)))) = false) :
    basenameOf p = stripHash (stemOf (pathName p)) := by
  have hgen' : pyLowerL (stripHash (stemOf (pathName p))) ∉ genericBasenames := by
    simpa using hgen
  simp [basenameOf, hgen']

/-- Helper: with no B2/B/G match the pattern stage extracts nothing. -/
theorem ppfPatterns_none (target : List Char) (hB2 : matchB2 target = none)
    (hB : matchB target = none) (hG : matchG target = none) :
    ppfPatterns target = ([], [], []) := by
  simp [ppfPatterns, hB2, hB, hG]

/-- Helper: with no extracted series or title, no grandparent directory and
no dash in the parent name, the ancestor stage extracts nothing. -/
theorem ppfAuthorSeries_none (pn : List Char) (hdash : pn.contains '-' = false)
    (b ggp : List Char) :
    ppfAuthorSeries b pn [] ggp [] [] = ([], [], []) := by
  have hdash' : '-' ∉ pn := by
    simpa using hdash
  simp [ppfAuthorSeries, hdash']

/-- Helper: with no author, series or extracted title, the title-cleanup
stage returns the cleaned basename. -/
theorem ppfTitleClean_empty (b : List Char) :
    ppfTitleClean b [] [] [] = cleanedBasename b := by
  simp [ppfTitleClean, cleanedBasename, patternDClean]

/-- Helper: without a parenthesised group in the title, the paren stage
passes the title through. -/
theorem ppfParen_none (t8 : List Char) (hparen : searchParenSeries t8 = none) :
    ppfParen t8 [] [] = (t8, [], []) := by
  simp [ppfParen, hparen]

/-- Helper: when every pattern of the fallback chain fails — no B2/B/G match
on the parse target, no grandparent directory, no dash in the parent name, no
parenthesised series in the cleaned basename — and the cleaned basename is
non-empty, the fallback returns it as the title with everything else empty. -/
theorem parsePathFallback_worst (b pn ggp target : List Char)
    (hB2 : matchB2 target = none) (hB : matchB target = none)
    (hG : matchG target = none) (hdash : pn.contains '-' = false)
    (hparen : searchParenSeries (cleanedBasename b) = none)
    (hne : cleanedBasename b ≠ []) :
    parsePathFallback b pn [] ggp target none =
      buildResult [] (cleanedBasename b) [] [] := by
  simp [parsePathFallback, ppfPatterns_none _ hB2 hB hG,
    ppfAuthorSeries_none _ hdash, dedupAuthorSeries, ppfTitleClean_empty,
    ppfParen_none _ hparen, hne, ppfAudio]

/-- C9: the path parser is total — the embedding `parse_path` is a plain
function on strings with no failure value, mirroring the exception-free
source — and in the worst case, when no pattern applies (no Pattern-A
marker, no B2/B/G match, no grandparent directory to mine, no author-title
dash split, no parenthesised series) and the cleaned basename is non-empty
and non-generic, it returns exactly the cleaned basename as the title with
author, series and position all empty. -/
theorem C9_total_worst_case_basename (p : String)
    (hgen : genericBasenames.contains
      (pyLowerL (stripHash (stemOf (pathName p.toList)))) = false)
    (hA : iterMarkers (parseTargetOf p.toList) 0 = [])
    (hB2 : matchB2 (parseTargetOf p.toList) = none)
    (hB : matchB (parseTargetOf p.toList) = none)
    (hG : matchG (parseTargetOf p.toList) = none)
    (hgp : stripHash (gpNameOf p.toList) = [])
    (hdash : (stripHash (parentNameOf p.toList)).contains '-' = false)
    (hparen : searchParenSeries
      (cleanedBasename (stripHash (stemOf (pathName p.toList)))) = none)
    (hne : cleanedBasename (stripHash (stemOf (pathName p.toList))) ≠ []) :
    parse_path p =
      { author := "",
        title := String.mk (pyLstripCharsL ['-', ' ']
          (pyStripL (cleanedBasename (stripHash (stemOf (pathName p.toList)))))),
        series := "", position := "" } := by
  show parse_path_impl p.toList none = _
  rw [parse_path_impl_noA _ _ hA, hgp, basenameOf_of_not_generic _ hgen,
    parsePathFallback_worst _ _ _ _ hB2 hB hG hdash hparen hne]
  rfl

/-- C9 witness: parsing the bare file `SomeBookTitle.m4b` yields the basename
as the title and empty author, series and position. -/
theorem C9_witness :
    parse_path "SomeBookTitle.m4b" =
      { author := "", title := "SomeBookTitle", series := "", position := "" } := by
  have h := C9_total_worst_case_basename "SomeBookTitle.m4b"
    (by decide) (by decide) (by decide) (by decide) (by decide)
    (by decide) (by decide) (by decide) (by decide)
  rw [h]
  rfl

end ABP
